import Mathlib

/-!
# TaskManagementSystem: authentication pipeline and task query layer

A shallow embedding of the Go sources

* `internal/lib/jwt/jwt.go`                 (`NewToken`)
* `internal/server/auth/auth.go`            (`verifyToken`, `GetUserIDFromContext`)
* `internal/server/auth/auth_interceptor.go` (`AuthInterceptor`)
* `internal/server/task/task.go`, `internal/services/task/task.go` (handlers, service)
* `internal/storage/storage.go`             (statements and their execution)

Go values are modelled as follows: `int64`/`int32` are `Int` (wrapping is written
explicitly where the source multiplies), `string` is `String`, `error` is
`Option GoError` (`none` is `nil`), a pair `(T, error)` is a Lean pair, or an `Except`
where the source returns a pointer that is `nil` exactly when the error is not.
Everything the repository imports from outside (the JWT library, the
RFC 3339 formatter and parser of package `time`, the result of an out-of-range
float conversion) is a field of `Env`; functions are parameterised by it.
-/

namespace TaskManagement

set_option maxRecDepth 100000

/-! ## Go runtime values -/

/-- Status codes of `google.golang.org/grpc/codes` used by the repository. -/
inductive Code
  | OK
  | InvalidArgument
  | NotFound
  | AlreadyExists
  | Unauthenticated
  | Internal
  deriving DecidableEq, Repr

/-- Go `error` values. `sentinel` is a package-level `errors.New` variable (compared by
identity, here by its name), `errorf` is `fmt.Errorf`/`errors.New` without `%w`,
`wrap` is `fmt.Errorf` with a trailing `%w` operand, `status` is `status.Error`. -/
inductive GoError
  | sentinel (name : String)
  | errorf (msg : String)
  | wrap (msg : String) (inner : GoError)
  | status (code : Code) (msg : String)
  deriving DecidableEq, Repr

/-- The function `errors.Is` for a sentinel target: identity along the `Unwrap` chain. A value
freshly allocated by `fmt.Errorf` is never identical to a package-level variable. -/
def errorsIs : GoError → GoError → Bool
  | .sentinel n, target => decide (GoError.sentinel n = target)
  | .errorf _, _ => false
  | .wrap _ inner, target => errorsIs inner target
  | .status _ _, _ => false

/-- A finite or non-finite IEEE double: `finite m e` is the number `m * 2 ^ e`. -/
inductive Float64
  | finite (mant : Int) (exp : Int)
  | inf (negative : Bool)
  | nan
  deriving DecidableEq, Repr

/-- The integer part (fraction discarded, towards zero) of a finite double. -/
def Float64.trunc : Float64 → Option Int
  | .finite m e => if 0 ≤ e then some (m * 2 ^ e.toNat) else some (Int.tdiv m (2 ^ (-e).toNat))
  | .inf _ => none
  | .nan => none

/-- The double is a whole number. -/
def Float64.isIntegral : Float64 → Bool
  | .finite m e => if 0 ≤ e then true else decide (Int.tmod m (2 ^ (-e).toNat) = 0)
  | .inf _ => false
  | .nan => false

def minInt64 : Int := -(2 ^ 63)

def maxInt64 : Int := 2 ^ 63 - 1

/-- Two's complement wrap-around of 64-bit signed arithmetic. -/
def wrapInt64 (x : Int) : Int := (x + 2 ^ 63) % 2 ^ 64 - 2 ^ 63

/-- Two's complement wrap-around of 32-bit signed arithmetic. -/
def wrapInt32 (x : Int) : Int := (x + 2 ^ 31) % 2 ^ 32 - 2 ^ 31

/-- The least `int32`. -/
def minInt32 : Int := -(2 ^ 31)

/-- The greatest `int32`. -/
def maxInt32 : Int := 2 ^ 31 - 1

/-- The lists `f 0, f 1, ..., f (k - 1)` concatenated. -/
def concatPages {α : Type} (f : Nat → List α) : Nat → List α
  | 0 => []
  | k + 1 => concatPages f k ++ f k

/-- An instant of `time.Time`, in nanoseconds since the Unix epoch. -/
structure Time where
  unixNano : Int
  deriving DecidableEq, Repr

/-- The zero value of `time.Time`: January 1, year 1, 00:00:00 UTC. -/
def Time.zero : Time := ⟨-62135596800 * 1000000000⟩

/-- Method `Time.IsZero`. -/
def Time.IsZero (t : Time) : Bool := decide (t = Time.zero)

/-- Method `Time.Unix`: whole seconds since the epoch. -/
def Time.Unix (t : Time) : Int := t.unixNano / 1000000000

/-- Method `Time.Add` for a `time.Duration` in nanoseconds. -/
def Time.Add (t : Time) (d : Int) : Time := ⟨t.unixNano + d⟩

/-- Function `strings.TrimPrefix`: `s` without the leading `pre`, or `s` itself. -/
def TrimPrefix (s pre : String) : String :=
  if pre.data.isPrefixOf s.data then String.mk (s.data.drop pre.data.length) else s

/-! ## The JWT library (github.com/golang-jwt/jwt/v5), as far as the repository uses it -/

/-- The signing methods the library registers. -/
inductive SigningMethod
  | HS256 | HS384 | HS512
  | RS256 | RS384 | RS512
  | ES256 | ES384 | ES512
  | PS256 | PS384 | PS512
  | EdDSA
  | none
  deriving DecidableEq, Repr

/-- The type assertion `token.Method.(*jwt.SigningMethodHMAC)` succeeds. -/
def SigningMethod.isHMAC : SigningMethod → Bool
  | .HS256 => true
  | .HS384 => true
  | .HS512 => true
  | _ => false

/-- The header field `alg` of a method. -/
def SigningMethod.Alg : SigningMethod → String
  | .HS256 => "HS256" | .HS384 => "HS384" | .HS512 => "HS512"
  | .RS256 => "RS256" | .RS384 => "RS384" | .RS512 => "RS512"
  | .ES256 => "ES256" | .ES384 => "ES384" | .ES512 => "ES512"
  | .PS256 => "PS256" | .PS384 => "PS384" | .PS512 => "PS512"
  | .EdDSA => "EdDSA"
  | .none => "none"

/-- The dynamic type of a value stored in `jwt.MapClaims` (`map[string]interface{}`). -/
inductive ClaimValue
  | float64 (v : Float64)
  | int64 (v : Int)
  | string (s : String)
  | bool (b : Bool)
  | null
  | array
  | object
  deriving DecidableEq, Repr

/-- What `%T` prints for a claim value. -/
def ClaimValue.typeName : ClaimValue → String
  | .float64 _ => "float64"
  | .int64 _ => "int64"
  | .string _ => "string"
  | .bool _ => "bool"
  | .null => "<nil>"
  | .array => "[]interface \x7b\x7d"
  | .object => "map[string]interface \x7b\x7d"

/-- Type `jwt.MapClaims`, a Go map from claim names to values. -/
abbrev MapClaims := List (String × ClaimValue)

/-- Map index `claims[k]` with the comma-ok form. -/
def MapClaims.get : MapClaims → String → Option ClaimValue
  | [], _ => Option.none
  | (k, v) :: rest, key => if k = key then some v else MapClaims.get rest key

/-- Map assignment `claims[k] = v`. -/
def MapClaims.set : MapClaims → String → ClaimValue → MapClaims
  | [], key, v => [(key, v)]
  | (k, w) :: rest, key, v => if k = key then (k, v) :: rest else (k, w) :: MapClaims.set rest key v

/-- The field `Claims` of a `jwt.Token`: `jwt.MapClaims` or some other `jwt.Claims`
implementation. -/
inductive Claims
  | mapClaims (m : MapClaims)
  | other
  deriving DecidableEq, Repr

/-- The fields of `jwt.Token` the repository reads. -/
structure Token where
  Method : SigningMethod
  Claims : Claims
  Valid : Bool
  deriving DecidableEq, Repr

/-- A `jwt.Keyfunc`: the key to verify the token with, or an error. -/
abbrev Keyfunc := Token → Except GoError String

/-- What the repository takes from outside: the JWT library, the RFC 3339 layout of
package `time`, and the implementation-dependent result of converting to `int64` a
double that `int64` cannot represent. -/
structure Env where
  /-- Function `jwt.Parse(tokenString, keyFunc)`, evaluated at the instant `now`. -/
  jwtParse : Time → String → Keyfunc → Except GoError Token
  /-- Method `Token.SignedString(key)` of a token with the given method and claims. -/
  jwtSignedString : SigningMethod → MapClaims → String → Except GoError String
  /-- Value of `int64(v)` when `v` is not finite or its integer part overflows. -/
  cvtOverflow : Float64 → Int
  /-- Method `Time.Format(time.RFC3339)`. -/
  formatRFC3339 : Time → String
  /-- Function `time.Parse(time.RFC3339, s)`. -/
  parseRFC3339 : String → Except GoError Time

/-- The Go conversion `int64(v)` of a `float64`: the fraction is discarded; when the result
is not representable the conversion still succeeds, with an implementation-dependent
value. -/
def Float64.toInt64 (env : Env) (v : Float64) : Int :=
  match v.trunc with
  | some n => if minInt64 ≤ n ∧ n ≤ maxInt64 then n else wrapInt64 (env.cvtOverflow v)
  | Option.none => wrapInt64 (env.cvtOverflow v)

/-! ## internal/models/models.go -/

/-- Struct `models.User`. -/
structure User where
  ID : Int
  Email : String
  PassHash : List Nat
  deriving DecidableEq, Repr

/-- Constant `models.Secret`. -/
def Secret : String := "secret"

/-! ## internal/lib/jwt/jwt.go -/

/-- The claims `NewToken` writes into the fresh token (`jwt.New` starts from an empty map). -/
def NewToken.claims (now : Time) (user : User) (duration : Int) : MapClaims :=
  let claims : MapClaims := []
  let claims := claims.set "uid" (.int64 user.ID)
  let claims := claims.set "email" (.string user.Email)
  let claims := claims.set "exp" (.int64 ((now.Add duration).Unix))
  claims

/-- Function `jwt.NewToken(user, duration)`, called at the instant `now`. -/
def NewToken (env : Env) (now : Time) (user : User) (duration : Int) : String × Option GoError :=
  match env.jwtSignedString .HS256 (NewToken.claims now user duration) Secret with
  | .error err => ("", some err)
  | .ok tokenString => (tokenString, Option.none)

/-! ## internal/server/auth/auth.go -/

/-- Constant `secretKey`. -/
def secretKey : String := "secret"

/-- The key function `verifyToken` hands to `jwt.Parse`. -/
def verifyToken.keyFunc : Keyfunc := fun token =>
  if !token.Method.isHMAC then
    .error (.errorf ("unexpected signing method: " ++ token.Method.Alg))
  else
    .ok secretKey

/-- Function `verifyToken(tokenString)`, called at the instant `now`. The line printed to
standard output on success is not modelled. -/
def verifyToken (env : Env) (now : Time) (tokenString : String) : Int × Option GoError :=
  if tokenString = "" then
    (0, some (.errorf "empty token string"))
  else
    match env.jwtParse now tokenString verifyToken.keyFunc with
    | .error err => (0, some (.wrap "token parsing failed: " err))
    | .ok token =>
      if !token.Valid then
        (0, some (.errorf "invalid token"))
      else
        match token.Claims with
        | .other => (0, some (.errorf "invalid token claims format"))
        | .mapClaims claims =>
          match claims.get "user_id" with
          | Option.none => (0, some (.errorf "user_id claim is missing"))
          | some (.float64 v) => (v.toInt64 env, Option.none)
          | some (.int64 v) => (v, Option.none)
          | some v => (0, some (.errorf ("user_id must be a number, got " ++ v.typeName)))

/-- Incoming gRPC metadata `metadata.MD`, a map from lower-case keys to value lists. -/
abbrev MD := List (String × List String)

/-- Method `MD.Get(k)` for a lower-case key: the values, empty when the key is absent. -/
def MD.Get : MD → String → List String
  | [], _ => []
  | (k, vs) :: rest, key => if k = key then vs else MD.Get rest key

/-- Values a handler of this repository finds in a `context.Context`. -/
inductive CtxValue
  | int64 (v : Int)
  | string (s : String)
  deriving DecidableEq, Repr

/-- A `context.Context`: the incoming metadata, if any, and the values bound by
`context.WithValue`, newest first. -/
structure Context where
  incoming : Option MD
  values : List (String × CtxValue)
  deriving DecidableEq, Repr

/-- Function `context.WithValue(ctx, key, val)` for a string key. -/
def Context.WithValue (ctx : Context) (key : String) (val : CtxValue) : Context :=
  { ctx with values := (key, val) :: ctx.values }

/-- Method `ctx.Value(key)` for a string key. -/
def Context.Value (ctx : Context) (key : String) : Option CtxValue :=
  (ctx.values.find? (fun kv => kv.1 = key)).map (fun kv => kv.2)

/-- Function `GetUserIDFromContext(ctx)`. -/
def GetUserIDFromContext (env : Env) (now : Time) (ctx : Context) : Int × Option GoError :=
  match ctx.incoming with
  | Option.none => (0, some (.errorf "no metadata in context"))
  | some md =>
    let authHeader := MD.Get md "authorization"
    match authHeader with
    | [] => (0, some (.errorf "no authorization header"))
    | first :: _ =>
      let tokenString := TrimPrefix first "Bearer "
      if tokenString = first then
        (0, some (.errorf "invalid authorization format"))
      else
        verifyToken env now tokenString

/-- Message `taskv1.RegisterRequest`. -/
structure RegisterRequest where
  Username : String
  Email : String
  Password : String
  deriving DecidableEq, Repr

/-- Message `taskv1.RegisterResponse`. -/
structure RegisterResponse where
  UserId : Int
  deriving DecidableEq, Repr

/-- Message `taskv1.LoginRequest`. -/
structure LoginRequest where
  Email : String
  Password : String
  deriving DecidableEq, Repr

/-- Message `taskv1.LoginResponse`. -/
structure LoginResponse where
  Token : String
  deriving DecidableEq, Repr

/-- The two methods of `service.Auth` (package `mod1/internal/services/auth`) the handlers
call. The package is not among the sources at hand, so the methods are parameters; they
act on a state `σ` that stands for everything the service can touch, so that calling them
is visible in the state. -/
structure AuthService (σ : Type) where
  /-- Method `RegisterNewUser(ctx, username, email, password)`. -/
  RegisterNewUser : Context → String → String → String → σ → (Int × Option GoError) × σ
  /-- Method `Login(ctx, email, password)`. -/
  Login : Context → String → String → σ → (String × Option GoError) × σ

/-- Variable `service.ErrUserExists`. -/
def ErrUserExists : GoError := .sentinel "service.ErrUserExists"

/-- Variable `service.ErrInvalidCredentials`. -/
def ErrInvalidCredentials : GoError := .sentinel "service.ErrInvalidCredentials"

/-- Method `AuthServer.Register(ctx, req)`. -/
def AuthServer.Register {σ : Type} (svc : AuthService σ) (ctx : Context) (req : RegisterRequest)
    (s : σ) : (Option RegisterResponse × Option GoError) × σ :=
  if req.Username = "" then
    ((none, some (.status .InvalidArgument "username is required")), s)
  else if req.Password = "" then
    ((none, some (.status .InvalidArgument "password is required")), s)
  else if req.Email = "" then
    ((none, some (.status .InvalidArgument "email is required")), s)
  else
    match svc.RegisterNewUser ctx req.Username req.Email req.Password s with
    | ((_, some err), s') =>
      if errorsIs err ErrUserExists then
        ((none, some (.status .AlreadyExists "user already exists")), s')
      else
        ((none, some (.status .Internal "failed to register user")), s')
    | ((userID, none), s') => ((some { UserId := userID }, none), s')

/-- Method `AuthServer.Login(ctx, req)`. -/
def AuthServer.Login {σ : Type} (svc : AuthService σ) (ctx : Context) (req : LoginRequest)
    (s : σ) : (Option LoginResponse × Option GoError) × σ :=
  if req.Email = "" then
    ((none, some (.status .InvalidArgument "email is required")), s)
  else if req.Password = "" then
    ((none, some (.status .InvalidArgument "password is required")), s)
  else
    match svc.Login ctx req.Email req.Password s with
    | ((_, some err), s') =>
      if errorsIs err ErrInvalidCredentials then
        ((none, some (.status .Unauthenticated "invalid credentials")), s')
      else
        ((none, some (.status .Internal "failed to login")), s')
    | ((token, none), s') => ((some { Token := token }, none), s')

/-! ## internal/server/auth/auth_interceptor.go -/

/-- Struct `grpc.UnaryServerInfo`. -/
structure UnaryServerInfo where
  FullMethod : String
  deriving DecidableEq, Repr

/-- A `grpc.UnaryHandler` acting on a state `σ` that stands for everything the handler can
touch (the store, logs, counters): running it is visible in the state. -/
abbrev UnaryHandler (σ Req Resp : Type) := Context → Req → σ → (Option Resp × Option GoError) × σ

/-- The map `publicMethods` declared inside `AuthInterceptor` (it shadows the package-level
variable of the same name). -/
def AuthInterceptor.publicMethods : List (String × Bool) :=
  [("/task_service.AuthService/Login", true),
   ("/task_service.AuthService/Register", true)]

/-- Map index `m[k]` of a `map[string]bool`: `false` for an absent key. -/
def boolMapIndex : List (String × Bool) → String → Bool
  | [], _ => false
  | (k, v) :: rest, key => if k = key then v else boolMapIndex rest key

/-- Function `AuthInterceptor(ctx, req, info, handler)`, called at the instant `now`. The
two log lines are not modelled. -/
def AuthInterceptor {σ Req Resp : Type} (env : Env) (now : Time) (ctx : Context) (req : Req)
    (info : UnaryServerInfo) (handler : UnaryHandler σ Req Resp) (s : σ) :
    (Option Resp × Option GoError) × σ :=
  if boolMapIndex AuthInterceptor.publicMethods info.FullMethod then
    handler ctx req s
  else
    match ctx.incoming with
    | Option.none => ((Option.none, some (.status .Unauthenticated "metadata is not provided")), s)
    | some md =>
      let authHeader := MD.Get md "authorization"
      match authHeader with
      | [] =>
        ((Option.none, some (.status .Unauthenticated "authorization token is not provided")), s)
      | first :: _ =>
        let token := TrimPrefix first "Bearer "
        if token = first then
          ((Option.none, some (.status .Unauthenticated "invalid authorization format")), s)
        else
          match verifyToken env now token with
          | (_, some _) => ((Option.none, some (.status .Unauthenticated "invalid token")), s)
          | (userID, Option.none) =>
            let ctx := ctx.WithValue "userID" (.int64 userID)
            handler ctx req s

/-! ## internal/storage/storage.go: rows, bound arguments, the store -/

/-- Struct `storage.Task`, one row of table `tasks`. `DueDate` is `none` for SQL `NULL`. -/
structure Task where
  ID : Int
  UserID : Int
  Title : String
  Description : String
  DueDate : Option Time
  Status : Int
  CreatedAt : Time
  UpdatedAt : Time
  deriving DecidableEq, Repr

/-- A value of the variadic `args ...interface{}` bound to a statement. -/
inductive SqlArg
  | int64 (v : Int)
  | int32 (v : Int)
  | text (s : String)
  | time (t : Time)
  | nullTime (t : Option Time)
  deriving DecidableEq, Repr

/-- The store behind `Storage.db`: the rows of `tasks` in the order the engine scans them,
and an infrastructure fault which, when present, makes every `PrepareContext` fail. -/
structure DB where
  tasks : List Task
  fault : Option GoError
  deriving DecidableEq, Repr

/-- The row predicate `id = taskID AND user_id = userID` of the single-task statements. -/
def ownsTask (taskID userID : Int) (t : Task) : Bool :=
  decide (t.ID = taskID) && decide (t.UserID = userID)

/-- Method `Storage.GetTask(ctx, userID, taskID)`: the statement
`SELECT ... FROM tasks WHERE id = $1 AND user_id = $2` run with `(taskID, userID)`;
`QueryRowContext(...).Scan` yields the first row or `sql.ErrNoRows`. -/
def Storage.GetTask (db : DB) (userID taskID : Int) : Except GoError Task :=
  match db.fault with
  | some err => .error (.wrap "storage.postgres.GetTask: prepare statement: " err)
  | none =>
    match db.tasks.find? (ownsTask taskID userID) with
    | none => .error (.errorf "storage.postgres.GetTask: task not found")
    | some task => .ok task

/-- The due-date argument `UpdateTask` computes from the string it is given. -/
def Storage.UpdateTask.parsedDueDate (env : Env) (dueDate : String) :
    Except GoError (Option Time) :=
  if dueDate ≠ "" then
    match env.parseRFC3339 dueDate with
    | .error err => .error (.wrap "storage.postgres.UpdateTask: invalid due date format: " err)
    | .ok t => .ok (some t)
  else
    .ok none

/-- Method `Storage.UpdateTask(ctx, taskID, userID, title, description, dueDate, status)`: the
statement `UPDATE tasks SET title = $1, description = $2, due_date = $3, status = $4,
updated_at = NOW() WHERE id = $5 AND user_id = $6`, then the check of `RowsAffected`. -/
def Storage.UpdateTask (env : Env) (now : Time) (db : DB) (taskID userID : Int)
    (title description : String) (dueDate : String) (status : Int) : DB × Option GoError :=
  match Storage.UpdateTask.parsedDueDate env dueDate with
  | .error err => (db, some err)
  | .ok parsedDueDate =>
    match db.fault with
    | some err => (db, some (.wrap "storage.postgres.UpdateTask: prepare statement: " err))
    | none =>
      let rowsAffected := (db.tasks.filter (ownsTask taskID userID)).length
      let db' : DB := { db with tasks := db.tasks.map (fun t =>
        if ownsTask taskID userID t then
          { t with Title := title, Description := description, DueDate := parsedDueDate,
                   Status := status, UpdatedAt := now }
        else t) }
      if rowsAffected = 0 then
        (db', some (.errorf "storage.postgres.UpdateTask: task not found or unauthorized"))
      else
        (db', none)

/-- Method `Storage.DeleteTask(ctx, taskID, userID)`: the statement
`DELETE FROM tasks WHERE id = $1 AND user_id = $2`, then the check of `RowsAffected`. -/
def Storage.DeleteTask (db : DB) (taskID userID : Int) : DB × Option GoError :=
  match db.fault with
  | some err => (db, some (.wrap "storage.postgres.DeleteTask: prepare statement: " err))
  | none =>
    let rowsAffected := (db.tasks.filter (ownsTask taskID userID)).length
    let db' : DB := { db with tasks := db.tasks.filter (fun t => !ownsTask taskID userID t) }
    if rowsAffected = 0 then
      (db', some (.errorf "storage.postgres.DeleteTask: task not found or unauthorized"))
    else
      (db', none)

/-- Method `Storage.CreateTask(ctx, userID, title, description, dueDate, status)`: the due
date is parsed first, then the statement `INSERT INTO tasks (user_id, title, description,
due_date, status) VALUES ($1, $2, $3, $4, $5) RETURNING id` runs with the `sql.NullTime`
built from it. `newID` is the id the store assigns to the new row and `now` the instant
the store assigns to its two timestamp columns. -/
def Storage.CreateTask (env : Env) (now : Time) (db : DB) (newID : Int) (userID : Int)
    (title description : String) (dueDate : String) (status : Int) :
    (Int × Option GoError) × DB :=
  let parsed : Except GoError Time :=
    if dueDate ≠ "" then
      match env.parseRFC3339 dueDate with
      | .error err =>
        .error (.wrap "storage.postgres.CreateTask: invalid due date format: " err)
      | .ok t => .ok t
    else
      .ok Time.zero
  match parsed with
  | .error err => ((0, some err), db)
  | .ok parsedDueDate =>
    let nullableDueDate : Option Time := if dueDate ≠ "" then some parsedDueDate else none
    match db.fault with
    | some err =>
      ((0, some (.wrap "storage.postgres.CreateTask: prepare statement: " err)), db)
    | none =>
      let row : Task :=
        { ID := newID, UserID := userID, Title := title, Description := description,
          DueDate := nullableDueDate, Status := status, CreatedAt := now, UpdatedAt := now }
      ((newID, none), { db with tasks := db.tasks ++ [row] })

/-! ## internal/storage/storage.go: the statements of `ListTasks` and `SearchTasks` -/

/-- Lines 262-296 of `Storage.ListTasks`: the query text and the bound arguments, or the
error of an early return. `pageSize` and `pageToken` are `int32`. -/
def Storage.ListTasks.statement (env : Env) (userID : Int) (status : Option Int)
    (dueDateFrom dueDateTo : Option String) (pageSize pageToken : Int) :
    Except GoError (String × List SqlArg) := do
  let mut query := "SELECT id, user_id, title, description, due_date, status, created_at, updated_at FROM tasks WHERE user_id = $1"
  let mut args : List SqlArg := []
  args := args ++ [.int64 userID]
  let mut argCount : Nat := 2
  if let some st := status then
    query := query ++ (" AND status = $" ++ toString argCount)
    args := args ++ [.int32 st]
    argCount := argCount + 1
  if let some dueFrom := dueDateFrom then
    query := query ++ (" AND due_date >= $" ++ toString argCount)
    match env.parseRFC3339 dueFrom with
    | .error err =>
      throw (.wrap "storage.postgres.ListTasks: invalid due date from format: " err)
    | .ok t =>
      args := args ++ [.time t]
      argCount := argCount + 1
  if let some dueTo := dueDateTo then
    query := query ++ (" AND due_date <= $" ++ toString argCount)
    match env.parseRFC3339 dueTo with
    | .error err =>
      throw (.wrap "storage.postgres.ListTasks: invalid due date to format: " err)
    | .ok t =>
      args := args ++ [.time t]
      argCount := argCount + 1
  query := query ++ (" LIMIT $" ++ toString argCount ++ " OFFSET $" ++ toString (argCount + 1))
  args := args ++ [.int32 pageSize]
  args := args ++ [.int32 (wrapInt32 (pageSize * pageToken))]
  return (query, args)

/-- The constant text `SearchTasks` prepares (lines 337-340). -/
def Storage.SearchTasks.query : String :=
  "SELECT id, user_id, title, description, due_date, status, created_at, updated_at FROM tasks " ++
    "WHERE user_id = $1 AND (title ILIKE $2 OR description ILIKE $2) " ++
    "LIMIT $3 OFFSET $4"

/-- The arguments `SearchTasks` binds (lines 346-348). -/
def Storage.SearchTasks.args (userID : Int) (query : String) (pageSize pageToken : Int) :
    List SqlArg :=
  let searchQuery := "%" ++ query ++ "%"
  [.int64 userID, .text searchQuery, .int32 pageSize, .int32 (wrapInt32 (pageSize * pageToken))]

/-- The text and arguments of `SearchTasks`, in the shape of `ListTasks.statement`. -/
def Storage.SearchTasks.statement (userID : Int) (query : String) (pageSize pageToken : Int) :
    String × List SqlArg :=
  (Storage.SearchTasks.query, Storage.SearchTasks.args userID query pageSize pageToken)

/-! ## The SQL engine, restricted to the statements `ListTasks` and `SearchTasks` prepare -/

/-- One predicate of a `WHERE` conjunction over table `tasks`; `ph` is the number of the
placeholder `$ph` it compares with. -/
inductive Cond
  | userIdEq (ph : Nat)
  | statusEq (ph : Nat)
  | dueDateGe (ph : Nat)
  | dueDateLe (ph : Nat)
  | titleOrDescILike (ph : Nat)
  deriving DecidableEq, Repr

/-- A statement `SELECT <columns> FROM tasks WHERE c1 AND ... AND cn LIMIT $l OFFSET $o`. -/
structure SelectStmt where
  conds : List Cond
  limitPh : Nat
  offsetPh : Nat
  deriving DecidableEq, Repr

/-- The SQL text of a predicate. -/
def Cond.render : Cond → String
  | .userIdEq ph => "user_id = $" ++ toString ph
  | .statusEq ph => "status = $" ++ toString ph
  | .dueDateGe ph => "due_date >= $" ++ toString ph
  | .dueDateLe ph => "due_date <= $" ++ toString ph
  | .titleOrDescILike ph =>
    "(title ILIKE $" ++ toString ph ++ " OR description ILIKE $" ++ toString ph ++ ")"

/-- Further predicates of a conjunction, each introduced by ` AND `. -/
def andClauses : List Cond → String
  | [] => ""
  | c :: rest => " AND " ++ c.render ++ andClauses rest

/-- A conjunction: the first predicate, and every other one joined to it by ` AND `. -/
def renderConj : List Cond → String
  | [] => ""
  | c :: rest => c.render ++ andClauses rest

/-- The SQL text of a statement. -/
def SelectStmt.render (s : SelectStmt) : String :=
  "SELECT id, user_id, title, description, due_date, status, created_at, updated_at FROM tasks" ++
    " WHERE " ++ renderConj s.conds ++
    " LIMIT $" ++ toString s.limitPh ++ " OFFSET $" ++ toString s.offsetPh

/-- The argument bound to placeholder `$ph` (placeholders count from 1). -/
def placeholder (args : List SqlArg) (ph : Nat) : Option SqlArg :=
  if ph = 0 then none else args.get? (ph - 1)

/-- An integer argument. -/
def SqlArg.asInt : SqlArg → Option Int
  | .int64 v => some v
  | .int32 v => some v
  | _ => none

/-- Helper of `likeMatch`: `f` accepts some suffix of the text. -/
def anySuffix (f : List Char → Bool) : List Char → Bool
  | [] => f []
  | c :: t => f (c :: t) || anySuffix f t

/-- SQL `LIKE`: `%` matches any run of characters, `_` any one character, a backslash
makes the next pattern character literal. A pattern ending in a lone backslash, which the
engine refuses, matches nothing here. -/
def likeMatch : List Char → List Char → Bool
  | [], t => t.isEmpty
  | c :: p, t =>
    if c = '%' then anySuffix (likeMatch p) t
    else if c = '_' then
      match t with
      | [] => false
      | _ :: t' => likeMatch p t'
    else if c = Char.ofNat 92 then
      match p with
      | [] => false
      | e :: p' =>
        match t with
        | [] => false
        | d :: t' => decide (d = e) && likeMatch p' t'
    else
      match t with
      | [] => false
      | d :: t' => decide (d = c) && likeMatch p t'

/-- One of the three characters with a special meaning in a `LIKE` pattern: `%`, `_` and
the backslash. -/
def isLikeSpecial (c : Char) : Bool :=
  decide (c = '%') || decide (c = '_') || decide (c = Char.ofNat 92)

/-- The text consists of ASCII characters (code points below 128). -/
def isASCII (s : String) : Bool :=
  s.data.all (fun c => decide (c.toNat < 128))

/-- SQL `text ILIKE pattern`: `LIKE` after folding the letters of both to lower case. The
fold is `Char.toLower`, which changes the letters `A` to `Z` only; the engine folds with the
`lower` of its locale. The two agree on ASCII text, and statements about `ilike` are made
for ASCII text only. -/
def ilike (text pattern : String) : Bool :=
  likeMatch (pattern.data.map Char.toLower) (text.data.map Char.toLower)

/-- A predicate's placeholder is bound to an argument of a type the column accepts. -/
def Cond.bound (args : List SqlArg) : Cond → Bool
  | .userIdEq ph => ((placeholder args ph).bind SqlArg.asInt).isSome
  | .statusEq ph => ((placeholder args ph).bind SqlArg.asInt).isSome
  | .dueDateGe ph => match placeholder args ph with
    | some (.time _) => true
    | _ => false
  | .dueDateLe ph => match placeholder args ph with
    | some (.time _) => true
    | _ => false
  | .titleOrDescILike ph => match placeholder args ph with
    | some (.text _) => true
    | _ => false

/-- The predicate holds of a row; a comparison with a `NULL` due date does not hold. -/
def Cond.holds (args : List SqlArg) (row : Task) : Cond → Bool
  | .userIdEq ph => match (placeholder args ph).bind SqlArg.asInt with
    | some v => decide (row.UserID = v)
    | none => false
  | .statusEq ph => match (placeholder args ph).bind SqlArg.asInt with
    | some v => decide (row.Status = v)
    | none => false
  | .dueDateGe ph => match placeholder args ph, row.DueDate with
    | some (.time t), some d => decide (t.unixNano ≤ d.unixNano)
    | _, _ => false
  | .dueDateLe ph => match placeholder args ph, row.DueDate with
    | some (.time t), some d => decide (d.unixNano ≤ t.unixNano)
    | _, _ => false
  | .titleOrDescILike ph => match placeholder args ph with
    | some (.text pat) => ilike row.Title pat || ilike row.Description pat
    | _ => false

/-- The rows a statement's `WHERE` clause selects, before `LIMIT` and `OFFSET`. -/
def SelectStmt.selected (s : SelectStmt) (args : List SqlArg) (rows : List Task) : List Task :=
  rows.filter (fun row => s.conds.all (Cond.holds args row))

/-- Execution of a statement with bound arguments over the rows of `tasks`: the selected
rows in scan order, `OFFSET` rows skipped, at most `LIMIT` rows kept. -/
def SelectStmt.run (s : SelectStmt) (args : List SqlArg) (rows : List Task) :
    Except GoError (List Task) :=
  if !(s.conds.all (Cond.bound args)) then
    .error (.errorf "pq: could not bind parameters")
  else
    match (placeholder args s.limitPh).bind SqlArg.asInt,
          (placeholder args s.offsetPh).bind SqlArg.asInt with
    | some limit, some offset =>
      if limit < 0 then .error (.errorf "pq: LIMIT must not be negative")
      else if offset < 0 then .error (.errorf "pq: OFFSET must not be negative")
      else .ok (((s.selected args rows).drop offset.toNat).take limit.toNat)
    | _, _ => .error (.errorf "pq: could not bind parameters")

/-- Numbers a list of predicates with consecutive placeholders. -/
def numberConds : Nat → List (Nat → Cond) → List Cond
  | _, [] => []
  | n, c :: cs => c n :: numberConds (n + 1) cs

/-- The statement of `ListTasks` for a presence pattern of the three optional filters. -/
def listSelect (hasStatus hasFrom hasTo : Bool) : SelectStmt :=
  let optional : List (Nat → Cond) :=
    (if hasStatus then [Cond.statusEq] else []) ++
    (if hasFrom then [Cond.dueDateGe] else []) ++
    (if hasTo then [Cond.dueDateLe] else [])
  { conds := Cond.userIdEq 1 :: numberConds 2 optional,
    limitPh := optional.length + 2,
    offsetPh := optional.length + 3 }

/-- The statement of `SearchTasks`. -/
def searchSelect : SelectStmt :=
  { conds := [Cond.userIdEq 1, Cond.titleOrDescILike 2], limitPh := 3, offsetPh := 4 }

/-- The statements the engine is asked to prepare by `ListTasks` and `SearchTasks`. -/
def knownSelects : List SelectStmt :=
  [listSelect false false false, listSelect true false false,
   listSelect false true false, listSelect false false true,
   listSelect true true false, listSelect true false true,
   listSelect false true true, listSelect true true true,
   searchSelect]

/-- Statement preparation: the statement whose text is `q`, if it is one of
`knownSelects`. -/
def parseSelect (q : String) : Option SelectStmt :=
  knownSelects.find? (fun s => decide (s.render = q))

/-- The calls `PrepareContext(ctx, q)`, `QueryContext(ctx, args...)` and the scan loop shared
by `ListTasks` and `SearchTasks`; `op` is the operation name used in the error text. -/
def Storage.queryTasks (db : DB) (op : String) (q : String) (args : List SqlArg) :
    List Task × Option GoError :=
  match db.fault with
  | some err => ([], some (.wrap (op ++ ": prepare statement: ") err))
  | none =>
    match parseSelect q with
    | none => ([], some (.wrap (op ++ ": prepare statement: ") (.errorf "pq: syntax error")))
    | some stmt =>
      match stmt.run args db.tasks with
      | .error err => ([], some (.wrap (op ++ ": execute statement: ") err))
      | .ok tasks => (tasks, none)

/-- Method `Storage.ListTasks(ctx, userID, status, dueDateFrom, dueDateTo, pageSize,
pageToken)`. -/
def Storage.ListTasks (env : Env) (db : DB) (userID : Int) (status : Option Int)
    (dueDateFrom dueDateTo : Option String) (pageSize pageToken : Int) :
    List Task × Option GoError :=
  match Storage.ListTasks.statement env userID status dueDateFrom dueDateTo pageSize pageToken with
  | .error err => ([], some err)
  | .ok (query, args) => Storage.queryTasks db "storage.postgres.ListTasks" query args

/-- Method `Storage.SearchTasks(ctx, userID, query, pageSize, pageToken)`. -/
def Storage.SearchTasks (db : DB) (userID : Int) (query : String) (pageSize pageToken : Int) :
    List Task × Option GoError :=
  Storage.queryTasks db "storage.postgres.SearchTasks" Storage.SearchTasks.query
    (Storage.SearchTasks.args userID query pageSize pageToken)

/-- The leading decimal digits of a text. -/
def leadingDigits : List Char → List Char
  | [] => []
  | c :: rest => if c.isDigit then c :: leadingDigits rest else []

/-- The number a run of decimal digits writes. -/
def digitsValue (ds : List Char) : Nat :=
  ds.foldl (fun n c => 10 * n + (c.toNat - 48)) 0

/-- The placeholders `$k` of a statement text, in order of appearance. -/
def placeholdersIn : List Char → List Nat
  | [] => []
  | c :: rest =>
    if c = '$' then
      match leadingDigits rest with
      | [] => placeholdersIn rest
      | d :: ds => digitsValue (d :: ds) :: placeholdersIn rest
    else
      placeholdersIn rest

/-- The argument `ListTasks` binds for a due-date bound that is present and parses. -/
def Storage.ListTasks.timeArg (env : Env) : Option String → List SqlArg
  | none => []
  | some s =>
    match env.parseRFC3339 s with
    | .ok t => [.time t]
    | .error _ => []

/-- The arguments `ListTasks` binds for the optional filters that are present, in the order
status, lower bound, upper bound. -/
def Storage.ListTasks.filterArgs (env : Env) (status : Option Int)
    (dueDateFrom dueDateTo : Option String) : List SqlArg :=
  (match status with
    | some st => [SqlArg.int32 st]
    | none => []) ++
  Storage.ListTasks.timeArg env dueDateFrom ++ Storage.ListTasks.timeArg env dueDateTo

/-- The rows the `WHERE` clause of `ListTasks` selects, in scan order, before `LIMIT` and
`OFFSET`: the caller's matching rows. -/
def Storage.ListTasks.matching (env : Env) (db : DB) (userID : Int) (status : Option Int)
    (dueDateFrom dueDateTo : Option String) : List Task :=
  (listSelect status.isSome dueDateFrom.isSome dueDateTo.isSome).selected
    (.int64 userID :: Storage.ListTasks.filterArgs env status dueDateFrom dueDateTo) db.tasks

/-- The rows the `WHERE` clause of `SearchTasks` selects, in scan order, before `LIMIT` and
`OFFSET`: the caller's matching rows. -/
def Storage.SearchTasks.matching (db : DB) (userID : Int) (query : String) : List Task :=
  searchSelect.selected [.int64 userID, .text ("%" ++ query ++ "%")] db.tasks

/-! ## internal/services/task/task.go -/

/-- Method `TaskService.CreateTask`. -/
def TaskService.CreateTask (env : Env) (now : Time) (db : DB) (newID : Int) (userID : Int)
    (title description : String) (dueDate : Time) (status : Int) :
    (Int × Option GoError) × DB :=
  let dueDateStr := if !dueDate.IsZero then env.formatRFC3339 dueDate else ""
  Storage.CreateTask env now db newID userID title description dueDateStr status

/-- Method `TaskService.GetTask`. -/
def TaskService.GetTask (db : DB) (userID taskID : Int) : Except GoError Task :=
  Storage.GetTask db userID taskID

/-- Method `TaskService.UpdateTask`. -/
def TaskService.UpdateTask (env : Env) (now : Time) (db : DB) (userID taskID : Int)
    (title description : String) (dueDate : Time) (status : Int) : DB × Option GoError :=
  let dueDateStr := if !dueDate.IsZero then env.formatRFC3339 dueDate else ""
  Storage.UpdateTask env now db taskID userID title description dueDateStr status

/-- Method `TaskService.DeleteTask`. -/
def TaskService.DeleteTask (db : DB) (userID taskID : Int) : DB × Option GoError :=
  Storage.DeleteTask db taskID userID

/-- The filters `TaskService.ListTasks` hands to the storage (lines 43-58): the status as
`*int32`, the two bounds formatted as RFC 3339 strings; a `nil` pointer stays `nil`. -/
def TaskService.ListTasks.filters (env : Env) (status : Option Int)
    (dueDateFrom dueDateTo : Option Time) : Option Int × Option String × Option String :=
  let statusInt := match status with
    | some s => some s
    | none => none
  let fromStr := match dueDateFrom with
    | some t => some (env.formatRFC3339 t)
    | none => none
  let toStr := match dueDateTo with
    | some t => some (env.formatRFC3339 t)
    | none => none
  (statusInt, fromStr, toStr)

/-- Method `TaskService.ListTasks`. -/
def TaskService.ListTasks (env : Env) (db : DB) (userID : Int) (status : Option Int)
    (dueDateFrom dueDateTo : Option Time) (pageSize pageToken : Int) :
    List Task × Option GoError :=
  match TaskService.ListTasks.filters env status dueDateFrom dueDateTo with
  | (statusInt, fromStr, toStr) =>
    Storage.ListTasks env db userID statusInt fromStr toStr pageSize pageToken

/-- Method `TaskService.SearchTasks`. -/
def TaskService.SearchTasks (db : DB) (userID : Int) (query : String)
    (pageSize pageToken : Int) : List Task × Option GoError :=
  Storage.SearchTasks db userID query pageSize pageToken

/-! ## internal/server/task/task.go -/

/-- Variable `ErrTaskNotFound = errors.New("Task not found")` of package `server`. -/
def ErrTaskNotFound : GoError := .sentinel "ErrTaskNotFound"

/-- Message `taskv1.Task`; a timestamp field is `none` when the pointer is `nil`. -/
structure ProtoTask where
  Id : Int
  Title : String
  Description : String
  DueDate : Option Time
  Status : Int
  CreatedAt : Option Time
  UpdatedAt : Option Time
  deriving DecidableEq, Repr

/-- Function `convertTaskToProto`. -/
def convertTaskToProto (task : Task) : ProtoTask :=
  { Id := task.ID,
    Title := task.Title,
    Description := task.Description,
    DueDate := task.DueDate,
    Status := task.Status,
    CreatedAt := if !task.CreatedAt.IsZero then some task.CreatedAt else none,
    UpdatedAt := if !task.UpdatedAt.IsZero then some task.UpdatedAt else none }

/-- Message `taskv1.GetTaskRequest`. -/
structure GetTaskRequest where
  Id : Int
  deriving DecidableEq, Repr

/-- Message `taskv1.UpdateTaskRequest`. -/
structure UpdateTaskRequest where
  Id : Int
  Title : String
  Description : String
  DueDate : Option Time
  Status : Int
  deriving DecidableEq, Repr

/-- Message `taskv1.DeleteTaskRequest`. -/
structure DeleteTaskRequest where
  Id : Int
  deriving DecidableEq, Repr

/-- Message `taskv1.DeleteTaskResponse`. -/
structure DeleteTaskResponse where
  Success : Bool
  deriving DecidableEq, Repr

/-- Message `taskv1.ListTasksRequest`. -/
structure ListTasksRequest where
  Status : Int
  DueDateFrom : Option Time
  DueDateTo : Option Time
  PageSize : Int
  PageToken : Int
  deriving DecidableEq, Repr

/-- Message `taskv1.ListTasksResponse`. -/
structure ListTasksResponse where
  Tasks : List ProtoTask
  NextPageToken : Int
  deriving DecidableEq, Repr

/-- Constant `TASK_STATUS_OPEN`. -/
def TASK_STATUS_OPEN : Int := 1

/-- Message `taskv1.CreateTaskRequest`. -/
structure CreateTaskRequest where
  Title : String
  Description : String
  DueDate : Option Time
  deriving DecidableEq, Repr

/-- Message `taskv1.SearchTasksRequest`. -/
structure SearchTasksRequest where
  Query : String
  PageSize : Int
  PageToken : Int
  deriving DecidableEq, Repr

/-- Message `taskv1.SearchTasksResponse`. -/
structure SearchTasksResponse where
  Tasks : List ProtoTask
  NextPageToken : Int
  deriving DecidableEq, Repr

/-- Method `TaskServer.CreateTask(ctx, req)`; the second component is the store
afterwards. -/
def TaskServer.CreateTask (env : Env) (now : Time) (db : DB) (newID : Int) (ctx : Context)
    (req : CreateTaskRequest) : (Option ProtoTask × Option GoError) × DB :=
  match GetUserIDFromContext env now ctx with
  | (_, some _) => ((none, some (.status .Unauthenticated "unauthorized")), db)
  | (userID, none) =>
    let dueDate := match req.DueDate with
      | some ts => ts
      | none => Time.zero
    match TaskService.CreateTask env now db newID userID req.Title req.Description dueDate
        TASK_STATUS_OPEN with
    | ((_, some _), db') => ((none, some (.status .Internal "failed to create task")), db')
    | ((taskID, none), db') =>
      match TaskService.GetTask db' userID taskID with
      | .error _ => ((none, some (.status .Internal "failed to get created task")), db')
      | .ok task => ((some (convertTaskToProto task), none), db')

/-- Method `TaskServer.GetTask(ctx, req)`. -/
def TaskServer.GetTask (env : Env) (now : Time) (db : DB) (ctx : Context)
    (req : GetTaskRequest) : Option ProtoTask × Option GoError :=
  match GetUserIDFromContext env now ctx with
  | (_, some _) => (none, some (.status .Unauthenticated "unauthorized"))
  | (userID, none) =>
    match TaskService.GetTask db userID req.Id with
    | .error err =>
      if errorsIs err ErrTaskNotFound then
        (none, some (.status .NotFound "task not found"))
      else
        (none, some (.status .Internal "failed to get task"))
    | .ok task => (some (convertTaskToProto task), none)

/-- Method `TaskServer.UpdateTask(ctx, req)`; the second component is the store afterwards. -/
def TaskServer.UpdateTask (env : Env) (now : Time) (db : DB) (ctx : Context)
    (req : UpdateTaskRequest) : (Option ProtoTask × Option GoError) × DB :=
  match GetUserIDFromContext env now ctx with
  | (_, some _) => ((none, some (.status .Unauthenticated "unauthorized")), db)
  | (userID, none) =>
    let dueDate := match req.DueDate with
      | some ts => ts
      | none => Time.zero
    match TaskService.UpdateTask env now db userID req.Id req.Title req.Description dueDate
        req.Status with
    | (db', some err) =>
      if errorsIs err ErrTaskNotFound then
        ((none, some (.status .NotFound "task not found")), db')
      else
        ((none, some (.status .Internal "failed to update task")), db')
    | (db', none) =>
      match TaskService.GetTask db' userID req.Id with
      | .error _ => ((none, some (.status .Internal "failed to get updated task")), db')
      | .ok task => ((some (convertTaskToProto task), none), db')

/-- Method `TaskServer.DeleteTask(ctx, req)`; the second component is the store afterwards. -/
def TaskServer.DeleteTask (env : Env) (now : Time) (db : DB) (ctx : Context)
    (req : DeleteTaskRequest) : (Option DeleteTaskResponse × Option GoError) × DB :=
  match GetUserIDFromContext env now ctx with
  | (_, some _) => ((none, some (.status .Unauthenticated "unauthorized")), db)
  | (userID, none) =>
    match TaskService.DeleteTask db userID req.Id with
    | (db', some err) =>
      if errorsIs err ErrTaskNotFound then
        ((none, some (.status .NotFound "task not found")), db')
      else
        ((none, some (.status .Internal "failed to delete task")), db')
    | (db', none) => ((some { Success := true }, none), db')

/-- The filters `TaskServer.ListTasks` hands to the service (lines 126-134): the address of
`req.Status` and the addresses of the two local `time.Time` variables. -/
def TaskServer.ListTasks.filters (req : ListTasksRequest) :
    Option Int × Option Time × Option Time :=
  let dueDateFrom := match req.DueDateFrom with
    | some ts => ts
    | none => Time.zero
  let dueDateTo := match req.DueDateTo with
    | some ts => ts
    | none => Time.zero
  (some req.Status, some dueDateFrom, some dueDateTo)

/-- Method `TaskServer.ListTasks(ctx, req)`. -/
def TaskServer.ListTasks (env : Env) (now : Time) (db : DB) (ctx : Context)
    (req : ListTasksRequest) : Option ListTasksResponse × Option GoError :=
  match GetUserIDFromContext env now ctx with
  | (_, some _) => (none, some (.status .Unauthenticated "unauthorized"))
  | (userID, none) =>
    match TaskServer.ListTasks.filters req with
    | (status, dueDateFrom, dueDateTo) =>
      match TaskService.ListTasks env db userID status dueDateFrom dueDateTo req.PageSize
          req.PageToken with
      | (_, some _) => (none, some (.status .Internal "failed to list tasks"))
      | (tasks, none) =>
        (some { Tasks := tasks.map convertTaskToProto,
                NextPageToken := wrapInt32 (req.PageToken + 1) }, none)

/-- Method `TaskServer.SearchTasks(ctx, req)`. -/
def TaskServer.SearchTasks (env : Env) (now : Time) (db : DB) (ctx : Context)
    (req : SearchTasksRequest) : Option SearchTasksResponse × Option GoError :=
  match GetUserIDFromContext env now ctx with
  | (_, some _) => (none, some (.status .Unauthenticated "unauthorized"))
  | (userID, none) =>
    match TaskService.SearchTasks db userID req.Query req.PageSize req.PageToken with
    | (_, some _) => (none, some (.status .Internal "failed to search tasks"))
    | (tasks, none) =>
      (some { Tasks := tasks.map convertTaskToProto,
              NextPageToken := wrapInt32 (req.PageToken + 1) }, none)

/-- The statement a `ListTasks` request of user `userID` makes the storage build: the
handler's filters, passed through the service, given to `Storage.ListTasks.statement`. -/
def TaskServer.ListTasks.statement (env : Env) (userID : Int) (req : ListTasksRequest) :
    Except GoError (String × List SqlArg) :=
  match TaskServer.ListTasks.filters req with
  | (status, dueDateFrom, dueDateTo) =>
    match TaskService.ListTasks.filters env status dueDateFrom dueDateTo with
    | (statusInt, fromStr, toStr) =>
      Storage.ListTasks.statement env userID statusInt fromStr toStr req.PageSize req.PageToken

/-! ## A concrete environment

A small, fully computable instance of `Env`, used to run the definitions on concrete
inputs: a JWT library that knows a finite book of tokens, and an RFC 3339 layout that
knows a finite table of instants. -/

/-- A token the book library can parse: its compact text, its header method, its claims as
JSON decoding yields them, and the key its signature was made with. -/
structure Minted where
  text : String
  method : SigningMethod
  claims : MapClaims
  key : String
  deriving DecidableEq, Repr

/-- A claim value after JSON encoding and decoding: numbers come back as `float64`. -/
def jsonDecoded : ClaimValue → ClaimValue
  | .int64 v => .float64 (.finite v 0)
  | v => v

/-- Whole seconds of a numeric date claim. -/
def numericDate : ClaimValue → Option Int
  | .float64 v => v.trunc
  | _ => none

/-- Book library, `jwt.Parse`: malformed text, key function, signature, then expiry. -/
def bookParse (book : List Minted) (now : Time) (tokenString : String) (keyFunc : Keyfunc) :
    Except GoError Token :=
  match book.find? (fun m => decide (m.text = tokenString)) with
  | none => .error (.errorf "token is malformed")
  | some m =>
    match keyFunc { Method := m.method, Claims := .mapClaims m.claims, Valid := false } with
    | .error err => .error (.wrap "token is unverifiable: error while executing keyfunc: " err)
    | .ok key =>
      if key ≠ m.key then .error (.errorf "token signature is invalid: signature is invalid")
      else
        match (MapClaims.get m.claims "exp").bind numericDate with
        | some exp =>
          if now.unixNano < exp * 1000000000 then
            .ok { Method := m.method, Claims := .mapClaims m.claims, Valid := true }
          else .error (.errorf "token has invalid claims: token is expired")
        | none => .ok { Method := m.method, Claims := .mapClaims m.claims, Valid := true }

/-- Book library, `Token.SignedString`: the text of the book entry for these claims. -/
def bookSignedString (book : List Minted) (method : SigningMethod) (claims : MapClaims)
    (key : String) : Except GoError String :=
  match book.find? (fun m => decide (m.method = method) &&
      decide (m.claims = claims.map (fun kv => (kv.1, jsonDecoded kv.2))) &&
      decide (m.key = key)) with
  | none => .error (.errorf "key is invalid")
  | some m => .ok m.text

/-- The tokens of the concrete environment: the one `NewToken` mints at instant 0 for user 7
with a lifetime of one hour, tokens carrying a `user_id` claim of several types, one
signed with another key, one with an asymmetric method, one that expired, and two whose
`user_id` is the double 7.5 (15 * 2^-1) and the double 1e19 (19073486328125 * 2^19). -/
def demoBook : List Minted :=
  [ { text := "minted.by.NewToken", method := .HS256, key := "secret",
      claims := [("uid", .float64 (.finite 7 0)), ("email", .string "ann@example.org"),
                 ("exp", .float64 (.finite 3600 0))] },
    { text := "user_id.float.7", method := .HS256, key := "secret",
      claims := [("user_id", .float64 (.finite 7 0)), ("exp", .float64 (.finite 3600 0))] },
    { text := "user_id.float.2", method := .HS256, key := "secret",
      claims := [("user_id", .float64 (.finite 2 0)), ("exp", .float64 (.finite 3600 0))] },
    { text := "user_id.int.9", method := .HS256, key := "secret",
      claims := [("user_id", .int64 9), ("exp", .float64 (.finite 3600 0))] },
    { text := "user_id.string", method := .HS256, key := "secret",
      claims := [("user_id", .string "7"), ("exp", .float64 (.finite 3600 0))] },
    { text := "other.key", method := .HS256, key := "not the secret",
      claims := [("user_id", .float64 (.finite 7 0)), ("exp", .float64 (.finite 3600 0))] },
    { text := "rs256.token", method := .RS256, key := "secret",
      claims := [("user_id", .float64 (.finite 7 0)), ("exp", .float64 (.finite 3600 0))] },
    { text := "expired.token", method := .HS256, key := "secret",
      claims := [("user_id", .float64 (.finite 7 0)), ("exp", .float64 (.finite 1 0))] },
    { text := "user_id.float.7.5", method := .HS256, key := "secret",
      claims := [("user_id", .float64 (.finite 15 (-1))),
                 ("exp", .float64 (.finite 3600 0))] },
    { text := "user_id.float.1e19", method := .HS256, key := "secret",
      claims := [("user_id", .float64 (.finite 19073486328125 19)),
                 ("exp", .float64 (.finite 3600 0))] } ]

/-- The instants the concrete RFC 3339 layout knows. -/
def demoInstants : List (Time × String) :=
  [ (Time.zero, "0001-01-01T00:00:00Z"),
    (⟨0⟩, "1970-01-01T00:00:00Z"),
    (⟨86400000000000⟩, "1970-01-02T00:00:00Z") ]

/-- Instants past the year 9999, with the text `Format` writes for them: five digits of
year, which `time.Parse` does not accept. -/
def demoLateInstants : List (Time × String) :=
  [ (⟨253402300800000000000⟩, "10000-01-01T00:00:00Z") ]

/-- The concrete environment. -/
def demoEnv : Env where
  jwtParse := bookParse demoBook
  jwtSignedString := bookSignedString demoBook
  cvtOverflow := fun _ => minInt64
  formatRFC3339 := fun t =>
    match (demoInstants ++ demoLateInstants).find? (fun p => decide (p.1 = t)) with
    | some p => p.2
    | none => "9999-12-31T23:59:59Z"
  parseRFC3339 := fun s =>
    match demoInstants.find? (fun p => decide (p.2 = s)) with
    | some p => .ok p.1
    | none => .error (.errorf ("parsing time \"" ++ s ++ "\": cannot parse"))

/-- A handler that records, in a state of type `List (Context × Req)`, every call it
receives; it answers nothing and no error. -/
def recordingHandler (Req : Type) : UnaryHandler (List (Context × Req)) Req Unit :=
  fun ctx req calls => ((some (), none), calls ++ [(ctx, req)])

/-- A healthy store with two tasks of user 7 and one task of user 2. -/
def demoDB : DB :=
  { tasks :=
      [ { ID := 1, UserID := 7, Title := "Write report", Description := "quarterly",
          DueDate := none, Status := 1, CreatedAt := ⟨0⟩, UpdatedAt := ⟨0⟩ },
        { ID := 2, UserID := 2, Title := "Secret plan", Description := "report",
          DueDate := none, Status := 1, CreatedAt := ⟨0⟩, UpdatedAt := ⟨0⟩ },
        { ID := 3, UserID := 7, Title := "Buy milk", Description := "two litres",
          DueDate := some ⟨86400000000000⟩, Status := 3, CreatedAt := ⟨0⟩, UpdatedAt := ⟨0⟩ } ],
    fault := none }

/-- An auth service that records its calls: it knows one registered address and one
account. -/
def demoAuthService : AuthService (List String) where
  RegisterNewUser := fun _ _ email _ calls =>
    if email = "taken@example.org" then
      ((0, some (.wrap "auth.RegisterNewUser: " ErrUserExists)), calls ++ ["RegisterNewUser"])
    else
      ((7, none), calls ++ ["RegisterNewUser"])
  Login := fun _ email password calls =>
    if email = "ann@example.org" ∧ password = "correct horse" then
      (("user_id.float.7", none), calls ++ ["Login"])
    else
      (("", some (.wrap "auth.Login: " ErrInvalidCredentials)), calls ++ ["Login"])

/-- A healthy store in which user 7 owns three tasks and user 2 one. -/
def demoBoard : DB :=
  { tasks :=
      [ { ID := 1, UserID := 7, Title := "Write report", Description := "quarterly",
          DueDate := none, Status := 1, CreatedAt := ⟨0⟩, UpdatedAt := ⟨0⟩ },
        { ID := 2, UserID := 2, Title := "Secret plan", Description := "report",
          DueDate := none, Status := 1, CreatedAt := ⟨0⟩, UpdatedAt := ⟨0⟩ },
        { ID := 3, UserID := 7, Title := "Buy milk", Description := "two litres",
          DueDate := some ⟨86400000000000⟩, Status := 3, CreatedAt := ⟨0⟩, UpdatedAt := ⟨0⟩ },
        { ID := 4, UserID := 7, Title := "Call the bank", Description := "about the card",
          DueDate := none, Status := 2, CreatedAt := ⟨0⟩, UpdatedAt := ⟨0⟩ } ],
    fault := none }

/-- A context whose incoming metadata carries one `authorization` value. -/
def ctxWithAuthorization (value : String) : Context :=
  { incoming := some [("authorization", [value])], values := [] }

/-! ## Lemmas on the Go primitives -/

/-- Trimming a non-empty prefix returns the string itself exactly when the string does not
start with the prefix. -/
theorem TrimPrefix_eq_self_iff (s pre : String) (hpre : pre.data ≠ []) :
    TrimPrefix s pre = s ↔ pre.data.isPrefixOf s.data = false := by
  unfold TrimPrefix
  by_cases h : pre.data.isPrefixOf s.data = true
  · simp only [h, if_true]
    constructor
    · intro heq
      exfalso
      have hlen : (s.data.drop pre.data.length).length = s.data.length := by
        have := congrArg String.data heq
        simp only at this
        rw [this]
      have hle : pre.data.length ≤ s.data.length :=
        (List.isPrefixOf_iff_prefix.mp h).length_le
      have hpos : 0 < pre.data.length := List.length_pos.mpr hpre
      rw [List.length_drop] at hlen
      omega
    · intro hf
      simp at hf
  · simp only [Bool.not_eq_true] at h
    simp [h]

/-- The test `token == authHeader[0]` holds exactly when the scheme `Bearer ` is absent. -/
theorem TrimPrefix_Bearer (s : String) :
    TrimPrefix s "Bearer " = s ↔ "Bearer ".data.isPrefixOf s.data = false :=
  TrimPrefix_eq_self_iff s "Bearer " (by decide)

/-- A value bound by `WithValue` is what `Value` returns for that key. -/
theorem Context.Value_WithValue (ctx : Context) (key : String) (val : CtxValue) :
    (ctx.WithValue key val).Value key = some val := by
  simp [Context.WithValue, Context.Value, List.find?]

/-! ## C1: tokens minted by `NewToken` against `verifyToken` -/

/-- The claims `NewToken` signs have no entry named `user_id`. -/
theorem NewToken_claims_lack_user_id (issued : Time) (user : User) (duration : Int) :
    MapClaims.get (NewToken.claims issued user duration) "user_id" = Option.none := by
  simp [NewToken.claims, MapClaims.set, MapClaims.get]

/-- Whatever the JWT library, as long as parsing a string it signed gives back claims with
the names that were signed, `verifyToken` rejects every token `NewToken` mints, at every
instant: `NewToken` writes the subject under `uid`, `verifyToken` reads `user_id`. -/
theorem verifyToken_rejects_minted (env : Env) (issued : Time) (user : User)
    (duration : Int) (tokenString : String)
    (hlib : ∀ method claims key text now keyFunc token,
      env.jwtSignedString method claims key = .ok text →
      env.jwtParse now text keyFunc = .ok token →
      ∃ m, token.Claims = .mapClaims m ∧
        ∀ k, (MapClaims.get m k).isSome = (MapClaims.get claims k).isSome)
    (hmint : NewToken env issued user duration = (tokenString, none)) :
    ∀ now, ∃ err, verifyToken env now tokenString = (0, some err) := by
  intro now
  have hsigned : env.jwtSignedString .HS256 (NewToken.claims issued user duration) Secret
      = .ok tokenString := by
    unfold NewToken at hmint
    cases hs : env.jwtSignedString .HS256 (NewToken.claims issued user duration) Secret with
    | error err => simp [hs] at hmint
    | ok text =>
      simp only [hs, Prod.mk.injEq, and_true] at hmint
      rw [hmint]
  unfold verifyToken
  by_cases hempty : tokenString = ""
  · exact ⟨.errorf "empty token string", by simp [hempty]⟩
  · simp only [hempty, if_false]
    cases hparse : env.jwtParse now tokenString verifyToken.keyFunc with
    | error err => exact ⟨_, rfl⟩
    | ok token =>
      obtain ⟨m, hm, hnames⟩ := hlib _ _ _ _ now _ token hsigned hparse
      have hmiss : MapClaims.get m "user_id" = Option.none := by
        have h := hnames "user_id"
        rw [NewToken_claims_lack_user_id] at h
        simpa using h
      by_cases hvalid : token.Valid = true
      · simp only [hvalid, Bool.not_true, hm, hmiss]
        exact ⟨_, rfl⟩
      · simp only [Bool.not_eq_true] at hvalid
        simp only [hvalid, Bool.not_false, if_true]
        exact ⟨_, rfl⟩

/-- C1 (the code departs from the claim). In the concrete environment, `NewToken` mints a
token for user 7 with a lifetime of one hour; one second later the library parses it and
finds signature and expiry in order, and `verifyToken` still rejects it, with id 0 and the
error "user_id claim is missing", instead of returning 7. -/
theorem C1_minted_token_is_rejected :
    NewToken demoEnv ⟨0⟩ { ID := 7, Email := "ann@example.org", PassHash := [] } 3600000000000
      = ("minted.by.NewToken", none) ∧
    (∃ token, demoEnv.jwtParse ⟨1000000000⟩ "minted.by.NewToken" verifyToken.keyFunc = .ok token ∧
      token.Valid = true) ∧
    verifyToken demoEnv ⟨1000000000⟩ "minted.by.NewToken"
      = (0, some (.errorf "user_id claim is missing")) := by
  refine ⟨by decide, ⟨_, rfl, rfl⟩, by decide⟩

/-! ## C2: a task that is absent or owned by someone else -/

/-- The errors of the storage are fresh values; none of them is `ErrTaskNotFound`. -/
theorem fresh_error_is_not_ErrTaskNotFound (msg : String) :
    errorsIs (.errorf msg) ErrTaskNotFound = false := rfl

/-- With a healthy store that holds no task with this id and owner, `GetTask` answers
`Internal`, whoever the authenticated caller is. -/
theorem GetTask_without_owned_task (env : Env) (now : Time) (db : DB) (ctx : Context)
    (req : GetTaskRequest) (userID : Int)
    (hauth : GetUserIDFromContext env now ctx = (userID, none))
    (hfault : db.fault = none)
    (habsent : ∀ t ∈ db.tasks, ¬ (t.ID = req.Id ∧ t.UserID = userID)) :
    TaskServer.GetTask env now db ctx req
      = (none, some (.status .Internal "failed to get task")) := by
  have hfind : db.tasks.find? (ownsTask req.Id userID) = none := by
    rw [List.find?_eq_none]
    intro t ht
    have := habsent t ht
    simpa [ownsTask] using this
  simp [TaskServer.GetTask, hauth, TaskService.GetTask, Storage.GetTask, hfault, hfind,
    errorsIs]

/-- With a healthy store that holds no task with this id and owner, `DeleteTask` answers
`Internal` and leaves the rows as they are. -/
theorem DeleteTask_without_owned_task (env : Env) (now : Time) (db : DB) (ctx : Context)
    (req : DeleteTaskRequest) (userID : Int)
    (hauth : GetUserIDFromContext env now ctx = (userID, none))
    (hfault : db.fault = none)
    (habsent : ∀ t ∈ db.tasks, ¬ (t.ID = req.Id ∧ t.UserID = userID)) :
    TaskServer.DeleteTask env now db ctx req
      = ((none, some (.status .Internal "failed to delete task")), db) := by
  have hnone : ∀ t ∈ db.tasks, ownsTask req.Id userID t = false := by
    intro t ht
    have := habsent t ht
    simpa [ownsTask] using this
  have hfilter : db.tasks.filter (ownsTask req.Id userID) = [] := by
    rw [List.filter_eq_nil_iff]
    intro t ht
    simp [hnone t ht]
  have hkeep : db.tasks.filter (fun t => !ownsTask req.Id userID t) = db.tasks := by
    rw [List.filter_eq_self]
    intro t ht
    simp [hnone t ht]
  cases db with
  | mk tasks fault =>
    simp only at hfault hfilter hkeep
    subst hfault
    simp [TaskServer.DeleteTask, hauth, TaskService.DeleteTask, Storage.DeleteTask, hfilter,
      hkeep, errorsIs]

/-- With a healthy store that holds no task with this id and owner, the storage method
`UpdateTask` fails with an error that is not `ErrTaskNotFound` (the parser of package `time`
does not return that variable either). -/
theorem storage_UpdateTask_rejects_unowned (env : Env) (now : Time) (db : DB)
    (taskID userID : Int) (title description dueDate : String) (status : Int)
    (henv : ∀ s e, env.parseRFC3339 s = .error e → errorsIs e ErrTaskNotFound = false)
    (hfault : db.fault = none)
    (hfilter : db.tasks.filter (ownsTask taskID userID) = []) :
    ∃ db' err, Storage.UpdateTask env now db taskID userID title description dueDate status
        = (db', some err) ∧ errorsIs err ErrTaskNotFound = false := by
  unfold Storage.UpdateTask Storage.UpdateTask.parsedDueDate
  by_cases hd : dueDate = ""
  · simp only [hd, ne_eq, not_true_eq_false, if_false, hfault, hfilter, List.length_nil,
      if_true]
    exact ⟨_, _, rfl, rfl⟩
  · simp only [ne_eq, hd, not_false_eq_true, if_true]
    cases hp : env.parseRFC3339 dueDate with
    | error e => exact ⟨_, _, rfl, by simpa [errorsIs] using henv dueDate e hp⟩
    | ok t =>
      simp only [hfault, hfilter, List.length_nil, if_true]
      exact ⟨_, _, rfl, rfl⟩

/-- With a healthy store that holds no task with this id and owner, `UpdateTask` answers
`Internal`, whatever the due date of the request. -/
theorem UpdateTask_without_owned_task (env : Env) (now : Time) (db : DB) (ctx : Context)
    (req : UpdateTaskRequest) (userID : Int)
    (henv : ∀ s e, env.parseRFC3339 s = .error e → errorsIs e ErrTaskNotFound = false)
    (hauth : GetUserIDFromContext env now ctx = (userID, none))
    (hfault : db.fault = none)
    (habsent : ∀ t ∈ db.tasks, ¬ (t.ID = req.Id ∧ t.UserID = userID)) :
    (TaskServer.UpdateTask env now db ctx req).1
      = (none, some (.status .Internal "failed to update task")) := by
  have hfilter : db.tasks.filter (ownsTask req.Id userID) = [] := by
    rw [List.filter_eq_nil_iff]
    intro t ht
    have := habsent t ht
    simpa [ownsTask] using this
  simp only [TaskServer.UpdateTask, hauth, TaskService.UpdateTask]
  obtain ⟨db', err, hres, hnot⟩ := storage_UpdateTask_rejects_unowned env now db req.Id userID
    req.Title req.Description
    (if (!(match req.DueDate with
        | some ts => ts
        | none => Time.zero).IsZero) = true
       then env.formatRFC3339 (match req.DueDate with
        | some ts => ts
        | none => Time.zero) else "") req.Status henv hfault hfilter
  rw [hres]
  simp [hnot]

/-- C2 (the code departs from the claim). Caller 7 is authenticated; the store is healthy
and holds one task, id 1, owned by user 2. For task id 1 (owned by another user) and for
task id 99 (absent), the handlers `GetTask`, `UpdateTask` and `DeleteTask` all answer
`Internal`, none answers `NotFound`: the storage reports the miss with a fresh error and
the handlers compare it with `ErrTaskNotFound`. -/
theorem C2_missing_task_answers_Internal :
    let db : DB :=
      { tasks := [{ ID := 1, UserID := 2, Title := "t", Description := "d", DueDate := none,
                    Status := 1, CreatedAt := ⟨0⟩, UpdatedAt := ⟨0⟩ }],
        fault := none }
    let ctx := ctxWithAuthorization "Bearer user_id.float.7"
    GetUserIDFromContext demoEnv ⟨5⟩ ctx = (7, none) ∧
    TaskServer.GetTask demoEnv ⟨5⟩ db ctx { Id := 1 }
      = (none, some (.status .Internal "failed to get task")) ∧
    TaskServer.GetTask demoEnv ⟨5⟩ db ctx { Id := 99 }
      = (none, some (.status .Internal "failed to get task")) ∧
    (TaskServer.UpdateTask demoEnv ⟨5⟩ db ctx
        { Id := 1, Title := "x", Description := "y", DueDate := none, Status := 3 }).1
      = (none, some (.status .Internal "failed to update task")) ∧
    (TaskServer.UpdateTask demoEnv ⟨5⟩ db ctx
        { Id := 99, Title := "x", Description := "y", DueDate := none, Status := 3 }).1
      = (none, some (.status .Internal "failed to update task")) ∧
    (TaskServer.DeleteTask demoEnv ⟨5⟩ db ctx { Id := 1 }).1
      = (none, some (.status .Internal "failed to delete task")) ∧
    (TaskServer.DeleteTask demoEnv ⟨5⟩ db ctx { Id := 99 }).1
      = (none, some (.status .Internal "failed to delete task")) := by
  decide

/-! ## C3, C4, C5, C10: the interceptor -/

/-- The three early returns of the interceptor for a method that is not public. -/
theorem interceptor_early_returns {σ Req Resp : Type} (env : Env) (now : Time)
    (ctx : Context) (req : Req) (info : UnaryServerInfo) (handler : UnaryHandler σ Req Resp)
    (s : σ)
    (hprotected : boolMapIndex AuthInterceptor.publicMethods info.FullMethod = false) :
    (ctx.incoming = none →
      AuthInterceptor env now ctx req info handler s
        = ((none, some (.status .Unauthenticated "metadata is not provided")), s)) ∧
    (∀ md, ctx.incoming = some md → MD.Get md "authorization" = [] →
      AuthInterceptor env now ctx req info handler s
        = ((none, some (.status .Unauthenticated "authorization token is not provided")), s)) ∧
    (∀ md first rest, ctx.incoming = some md → MD.Get md "authorization" = first :: rest →
      "Bearer ".data.isPrefixOf first.data = false →
      AuthInterceptor env now ctx req info handler s
        = ((none, some (.status .Unauthenticated "invalid authorization format")), s)) := by
  refine ⟨?_, ?_, ?_⟩
  · intro hmd
    simp [AuthInterceptor, hprotected, hmd]
  · intro md hmd hget
    simp [AuthInterceptor, hprotected, hmd, hget]
  · intro md first rest hmd hget hpre
    have htrim : TrimPrefix first "Bearer " = first := (TrimPrefix_Bearer first).mpr hpre
    simp [AuthInterceptor, hprotected, hmd, hget, htrim]

/-- C3. For a method that is not public, whatever the handler and its state: without
incoming metadata, without an `authorization` value, or with a first value that does not
start with `Bearer `, the interceptor returns an `Unauthenticated` error and leaves the
state untouched (the handler did not run); the three messages differ pairwise. -/
theorem C3_missing_credentials_rejected {σ Req Resp : Type} (env : Env) (now : Time)
    (ctx : Context) (req : Req) (info : UnaryServerInfo) (handler : UnaryHandler σ Req Resp)
    (s : σ)
    (hprotected : boolMapIndex AuthInterceptor.publicMethods info.FullMethod = false) :
    (ctx.incoming = none →
      AuthInterceptor env now ctx req info handler s
        = ((none, some (.status .Unauthenticated "metadata is not provided")), s)) ∧
    (∀ md, ctx.incoming = some md → MD.Get md "authorization" = [] →
      AuthInterceptor env now ctx req info handler s
        = ((none, some (.status .Unauthenticated "authorization token is not provided")), s)) ∧
    (∀ md first rest, ctx.incoming = some md → MD.Get md "authorization" = first :: rest →
      "Bearer ".data.isPrefixOf first.data = false →
      AuthInterceptor env now ctx req info handler s
        = ((none, some (.status .Unauthenticated "invalid authorization format")), s)) ∧
    ("metadata is not provided" ≠ "authorization token is not provided" ∧
     "metadata is not provided" ≠ "invalid authorization format" ∧
     "authorization token is not provided" ≠ "invalid authorization format") := by
  have h := interceptor_early_returns env now ctx req info handler s hprotected
  exact ⟨h.1, h.2.1, h.2.2, by decide, by decide, by decide⟩

/-- Witness of C3: a call to `GetTask` with a recording handler, for a context without
metadata, one without an `authorization` value and one with a `Basic` credential. -/
theorem C3_missing_credentials_rejected_witness :
    boolMapIndex AuthInterceptor.publicMethods "/task_service.TaskService/GetTask" = false ∧
    AuthInterceptor demoEnv ⟨5⟩ { incoming := none, values := [] } (1 : Nat)
        ⟨"/task_service.TaskService/GetTask"⟩ (recordingHandler Nat) []
      = ((none, some (.status .Unauthenticated "metadata is not provided")), []) ∧
    AuthInterceptor demoEnv ⟨5⟩ { incoming := some [("user-agent", ["grpc-go"])], values := [] }
        (1 : Nat) ⟨"/task_service.TaskService/GetTask"⟩ (recordingHandler Nat) []
      = ((none, some (.status .Unauthenticated "authorization token is not provided")), []) ∧
    AuthInterceptor demoEnv ⟨5⟩ (ctxWithAuthorization "Basic dXNlcjpwYXNz") (1 : Nat)
        ⟨"/task_service.TaskService/GetTask"⟩ (recordingHandler Nat) []
      = ((none, some (.status .Unauthenticated "invalid authorization format")), []) :=
  ⟨by decide,
   (C3_missing_credentials_rejected demoEnv ⟨5⟩ { incoming := none, values := [] } (1 : Nat)
      ⟨"/task_service.TaskService/GetTask"⟩ (recordingHandler Nat) [] (by decide)).1 rfl,
   (C3_missing_credentials_rejected demoEnv ⟨5⟩
      { incoming := some [("user-agent", ["grpc-go"])], values := [] } (1 : Nat)
      ⟨"/task_service.TaskService/GetTask"⟩ (recordingHandler Nat) [] (by decide)).2.1
      [("user-agent", ["grpc-go"])] rfl (by decide),
   (C3_missing_credentials_rejected demoEnv ⟨5⟩ (ctxWithAuthorization "Basic dXNlcjpwYXNz")
      (1 : Nat) ⟨"/task_service.TaskService/GetTask"⟩ (recordingHandler Nat) [] (by decide)).2.2.1
      [("authorization", ["Basic dXNlcjpwYXNz"])] "Basic dXNlcjpwYXNz" [] rfl (by decide)
      (by decide)⟩

/-- C4. For the login and the registration method, whatever the context (with or without
metadata or an `authorization` value), the request, the handler and its state, the
interceptor is the handler applied to the original context and request: the handler's
result, error and effect are returned unchanged, and nothing depends on the JWT library
or on the clock, which are not consulted. -/
theorem C4_public_methods_pass_through {σ Req Resp : Type} (env : Env) (now : Time)
    (ctx : Context) (req : Req) (info : UnaryServerInfo) (handler : UnaryHandler σ Req Resp)
    (s : σ)
    (hpublic : info.FullMethod = "/task_service.AuthService/Register" ∨
      info.FullMethod = "/task_service.AuthService/Login") :
    AuthInterceptor env now ctx req info handler s = handler ctx req s ∧
    ∀ (env' : Env) (now' : Time),
      AuthInterceptor env' now' ctx req info handler s
        = AuthInterceptor env now ctx req info handler s := by
  have hidx : boolMapIndex AuthInterceptor.publicMethods info.FullMethod = true := by
    rcases hpublic with h | h <;> rw [h] <;> decide
  have hall : ∀ (e : Env) (n : Time),
      AuthInterceptor e n ctx req info handler s = handler ctx req s := by
    intro e n
    simp [AuthInterceptor, hidx]
  exact ⟨hall env now, fun env' now' => by rw [hall env' now', hall env now]⟩

/-- Witness of C4: `Login` called without any metadata reaches the handler with the
original context and request. -/
theorem C4_public_methods_pass_through_witness :
    AuthInterceptor demoEnv ⟨5⟩ { incoming := none, values := [] } (1 : Nat)
        ⟨"/task_service.AuthService/Login"⟩ (recordingHandler Nat) []
      = ((some (), none), [({ incoming := none, values := [] }, 1)]) :=
  (C4_public_methods_pass_through demoEnv ⟨5⟩ { incoming := none, values := [] } (1 : Nat)
    ⟨"/task_service.AuthService/Login"⟩ (recordingHandler Nat) [] (Or.inr rfl)).1

/-- C5. For a method that is not public, whatever the handler and its state, one of two
things happens. Either the first `authorization` value carries the `Bearer ` scheme,
`verifyToken` succeeded on the token behind it with some id, and the interceptor is the
handler applied to the context extended with that id, which the handler reads back under
the key `userID`. Or the interceptor returns an `Unauthenticated` error and leaves the
state untouched: the handler did not run. -/
theorem C5_handler_runs_only_with_verified_identity {σ Req Resp : Type} (env : Env)
    (now : Time) (ctx : Context) (req : Req) (info : UnaryServerInfo)
    (handler : UnaryHandler σ Req Resp) (s : σ)
    (hprotected : boolMapIndex AuthInterceptor.publicMethods info.FullMethod = false) :
    (∃ md first rest userID,
      ctx.incoming = some md ∧ MD.Get md "authorization" = first :: rest ∧
      "Bearer ".data.isPrefixOf first.data = true ∧
      verifyToken env now (TrimPrefix first "Bearer ") = (userID, none) ∧
      AuthInterceptor env now ctx req info handler s
        = handler (ctx.WithValue "userID" (.int64 userID)) req s ∧
      (ctx.WithValue "userID" (.int64 userID)).Value "userID" = some (.int64 userID)) ∨
    ((¬ ∃ md first rest userID,
        ctx.incoming = some md ∧ MD.Get md "authorization" = first :: rest ∧
        verifyToken env now (TrimPrefix first "Bearer ") = (userID, none) ∧
        "Bearer ".data.isPrefixOf first.data = true) ∧
      ∃ msg, AuthInterceptor env now ctx req info handler s
        = ((none, some (.status .Unauthenticated msg)), s)) := by
  cases hmd : ctx.incoming with
  | none =>
    right
    refine ⟨?_, _, (interceptor_early_returns env now ctx req info handler s hprotected).1 hmd⟩
    rintro ⟨md, first, rest, userID, h, -⟩
    cases h
  | some md =>
    cases hget : MD.Get md "authorization" with
    | nil =>
      right
      refine ⟨?_, _, (interceptor_early_returns env now ctx req info handler s hprotected).2.1 md hmd hget⟩
      rintro ⟨md', first, rest, userID, h, hg, -⟩
      cases h
      rw [hget] at hg
      cases hg
    | cons first rest =>
      by_cases hpre : "Bearer ".data.isPrefixOf first.data = true
      · have htrim : TrimPrefix first "Bearer " ≠ first := by
          intro h
          rw [(TrimPrefix_Bearer first).mp h] at hpre
          cases hpre
        cases hver : verifyToken env now (TrimPrefix first "Bearer ") with
        | mk userID err =>
          cases err with
          | none =>
            left
            refine ⟨md, first, rest, userID, rfl, hget, hpre, hver, ?_,
              Context.Value_WithValue _ _ _⟩
            simp [AuthInterceptor, hprotected, hmd, hget, htrim, hver]
          | some e =>
            right
            refine ⟨?_, "invalid token", ?_⟩
            · rintro ⟨md', first', rest', userID', h, hg, hv, -⟩
              cases h
              rw [hget] at hg
              cases hg
              rw [hver] at hv
              cases hv
            · simp [AuthInterceptor, hprotected, hmd, hget, htrim, hver]
      · simp only [Bool.not_eq_true] at hpre
        right
        refine ⟨?_, _, (interceptor_early_returns env now ctx req info handler s hprotected).2.2 md
          first rest hmd hget hpre⟩
        rintro ⟨md', first', rest', userID', h, hg, -, hp⟩
        cases h
        rw [hget] at hg
        cases hg
        rw [hpre] at hp
        cases hp

/-- Witness of C5: a call to `GetTask` with a token that verifies. -/
theorem C5_handler_runs_only_with_verified_identity_witness :
    boolMapIndex AuthInterceptor.publicMethods "/task_service.TaskService/GetTask" = false ∧
    ((∃ md first rest userID,
      (ctxWithAuthorization "Bearer user_id.float.7").incoming = some md ∧
      MD.Get md "authorization" = first :: rest ∧
      "Bearer ".data.isPrefixOf first.data = true ∧
      verifyToken demoEnv ⟨5⟩ (TrimPrefix first "Bearer ") = (userID, none) ∧
      AuthInterceptor demoEnv ⟨5⟩ (ctxWithAuthorization "Bearer user_id.float.7") (1 : Nat)
          ⟨"/task_service.TaskService/GetTask"⟩ (recordingHandler Nat) []
        = recordingHandler Nat
            ((ctxWithAuthorization "Bearer user_id.float.7").WithValue "userID" (.int64 userID))
            1 [] ∧
      ((ctxWithAuthorization "Bearer user_id.float.7").WithValue "userID"
        (.int64 userID)).Value "userID" = some (.int64 userID)) ∨
    ((¬ ∃ md first rest userID,
        (ctxWithAuthorization "Bearer user_id.float.7").incoming = some md ∧
        MD.Get md "authorization" = first :: rest ∧
        verifyToken demoEnv ⟨5⟩ (TrimPrefix first "Bearer ") = (userID, none) ∧
        "Bearer ".data.isPrefixOf first.data = true) ∧
      ∃ msg, AuthInterceptor demoEnv ⟨5⟩ (ctxWithAuthorization "Bearer user_id.float.7")
          (1 : Nat) ⟨"/task_service.TaskService/GetTask"⟩ (recordingHandler Nat) []
        = ((none, some (.status .Unauthenticated msg)), []))) :=
  ⟨by decide,
   C5_handler_runs_only_with_verified_identity demoEnv ⟨5⟩
     (ctxWithAuthorization "Bearer user_id.float.7") (1 : Nat)
     ⟨"/task_service.TaskService/GetTask"⟩ (recordingHandler Nat) [] (by decide)⟩

/-- C10. For a method that is not public and a first `authorization` value with the
`Bearer ` scheme: whenever `verifyToken` returns an error for the token behind it,
whatever that error is, the interceptor returns `Unauthenticated` with the one message
"invalid token" and leaves the state untouched. -/
theorem C10_one_message_for_every_token_failure {σ Req Resp : Type} (env : Env) (now : Time)
    (ctx : Context) (req : Req) (info : UnaryServerInfo) (handler : UnaryHandler σ Req Resp)
    (s : σ) (md : MD) (first : String) (rest : List String) (userID : Int) (err : GoError)
    (hprotected : boolMapIndex AuthInterceptor.publicMethods info.FullMethod = false)
    (hmd : ctx.incoming = some md)
    (hget : MD.Get md "authorization" = first :: rest)
    (hbearer : "Bearer ".data.isPrefixOf first.data = true)
    (hfail : verifyToken env now (TrimPrefix first "Bearer ") = (userID, some err)) :
    AuthInterceptor env now ctx req info handler s
      = ((none, some (.status .Unauthenticated "invalid token")), s) := by
  have htrim : TrimPrefix first "Bearer " ≠ first := by
    intro h
    rw [(TrimPrefix_Bearer first).mp h] at hbearer
    cases hbearer
  simp [AuthInterceptor, hprotected, hmd, hget, htrim, hfail]

/-- Witness of C10: an expired token and a token signed with another key, two different
verifier errors, one outward error; the same outward error for an empty token, an
unparsable one, one with an asymmetric method, and one whose subject claim is missing or
is a string. -/
theorem C10_one_message_for_every_token_failure_witness :
    (∀ value ∈ ["Bearer ", "Bearer garbage", "Bearer rs256.token",
        "Bearer minted.by.NewToken", "Bearer user_id.string"],
      AuthInterceptor demoEnv ⟨5000000000⟩ (ctxWithAuthorization value) (1 : Nat)
          ⟨"/task_service.TaskService/GetTask"⟩ (recordingHandler Nat) []
        = ((none, some (.status .Unauthenticated "invalid token")), [])) ∧
    verifyToken demoEnv ⟨5000000000⟩ "expired.token"
      = (0, some (.wrap "token parsing failed: "
          (.errorf "token has invalid claims: token is expired"))) ∧
    verifyToken demoEnv ⟨5000000000⟩ "other.key"
      = (0, some (.wrap "token parsing failed: "
          (.errorf "token signature is invalid: signature is invalid"))) ∧
    AuthInterceptor demoEnv ⟨5000000000⟩ (ctxWithAuthorization "Bearer expired.token") (1 : Nat)
        ⟨"/task_service.TaskService/GetTask"⟩ (recordingHandler Nat) []
      = ((none, some (.status .Unauthenticated "invalid token")), []) ∧
    AuthInterceptor demoEnv ⟨5000000000⟩ (ctxWithAuthorization "Bearer other.key") (1 : Nat)
        ⟨"/task_service.TaskService/GetTask"⟩ (recordingHandler Nat) []
      = ((none, some (.status .Unauthenticated "invalid token")), []) :=
  ⟨by decide, by decide, by decide,
   C10_one_message_for_every_token_failure demoEnv ⟨5000000000⟩
     (ctxWithAuthorization "Bearer expired.token") (1 : Nat)
     ⟨"/task_service.TaskService/GetTask"⟩ (recordingHandler Nat) []
     [("authorization", ["Bearer expired.token"])] "Bearer expired.token" [] 0
     (.wrap "token parsing failed: " (.errorf "token has invalid claims: token is expired"))
     (by decide) rfl (by decide) (by decide) (by decide),
   C10_one_message_for_every_token_failure demoEnv ⟨5000000000⟩
     (ctxWithAuthorization "Bearer other.key") (1 : Nat)
     ⟨"/task_service.TaskService/GetTask"⟩ (recordingHandler Nat) []
     [("authorization", ["Bearer other.key"])] "Bearer other.key" [] 0
     (.wrap "token parsing failed: "
       (.errorf "token signature is invalid: signature is invalid"))
     (by decide) rfl (by decide) (by decide) (by decide)⟩

/-! ## C9: the subject claim -/

/-- The conversion `int64(v)` always yields a 64-bit integer. -/
theorem Float64.toInt64_in_range (env : Env) (v : Float64) :
    minInt64 ≤ v.toInt64 env ∧ v.toInt64 env ≤ maxInt64 := by
  have hwrap : ∀ x : Int, minInt64 ≤ wrapInt64 x ∧ wrapInt64 x ≤ maxInt64 := by
    intro x
    unfold wrapInt64 minInt64 maxInt64
    have h1 : 0 ≤ (x + 2 ^ 63) % 2 ^ 64 := Int.emod_nonneg _ (by decide)
    have h2 : (x + 2 ^ 63) % 2 ^ 64 < 2 ^ 64 := Int.emod_lt_of_pos _ (by decide)
    constructor <;> omega
  unfold Float64.toInt64
  cases v.trunc with
  | none => exact hwrap _
  | some n =>
    simp only
    split
    · assumption
    · exact hwrap _

/-- The integer part of a whole double is the double itself: for `m * 2 ^ e` with `e ≥ 0` it
is that product, and for `e < 0` it is the `n` with `n * 2 ^ (-e) = m`. -/
theorem Float64.trunc_of_whole (m e : Int) (hwhole : (Float64.finite m e).isIntegral = true) :
    ∃ n, (Float64.finite m e).trunc = some n ∧
      (0 ≤ e → n = m * 2 ^ e.toNat) ∧ (e < 0 → n * 2 ^ (-e).toNat = m) := by
  unfold Float64.isIntegral at hwhole
  unfold Float64.trunc
  by_cases he : 0 ≤ e
  · simp only [he, if_true]
    exact ⟨_, rfl, fun _ => rfl, fun h => absurd he (by omega)⟩
  · simp only [he, if_false, decide_eq_true_eq] at hwhole
    have htrunc : (if 0 ≤ e then some (m * 2 ^ e.toNat)
        else some (Int.tdiv m (2 ^ (-e).toNat))) = some (Int.tdiv m (2 ^ (-e).toNat)) :=
      if_neg he
    exact ⟨_, htrunc, fun h => absurd h he,
      fun _ => Int.tdiv_mul_cancel_of_tmod_eq_zero hwhole⟩

/-- C9, counterexample. Two tokens that pass parsing, signature and expiry validation.
One carries the `user_id` 7.5 (the double `15 * 2^-1`, not a whole number): `verifyToken`
succeeds and returns 7. The other carries the `user_id` 1e19 (the double
`19073486328125 * 2^19`, whose value 10000000000000000000 exceeds the greatest `int64`):
`verifyToken` succeeds and returns -9223372036854775808. In neither case is the id
returned the number of the claim. -/
theorem C9_fraction_and_overflow_change_the_id :
    (∃ token claims,
      demoEnv.jwtParse ⟨5⟩ "user_id.float.7.5" verifyToken.keyFunc = .ok token ∧
      token.Valid = true ∧ token.Claims = .mapClaims claims ∧
      MapClaims.get claims "user_id" = some (.float64 (.finite 15 (-1)))) ∧
    (Float64.finite 15 (-1)).isIntegral = false ∧
    verifyToken demoEnv ⟨5⟩ "user_id.float.7.5" = (7, none) ∧
    (∃ token claims,
      demoEnv.jwtParse ⟨5⟩ "user_id.float.1e19" verifyToken.keyFunc = .ok token ∧
      token.Valid = true ∧ token.Claims = .mapClaims claims ∧
      MapClaims.get claims "user_id" = some (.float64 (.finite 19073486328125 19))) ∧
    (Float64.finite 19073486328125 19).trunc = some 10000000000000000000 ∧
    maxInt64 < 10000000000000000000 ∧
    verifyToken demoEnv ⟨5⟩ "user_id.float.1e19" = (-9223372036854775808, none) ∧
    (-9223372036854775808 : Int) ≠ 10000000000000000000 := by
  refine ⟨⟨_, _, rfl, rfl, rfl, by decide⟩, by decide, by decide,
    ⟨_, _, rfl, rfl, rfl, by decide⟩, by decide, by decide, by decide, by decide⟩

/-- C9, amended. For a non-empty token string that `jwt.Parse` accepts (no error, `Valid`
set, claims of type `jwt.MapClaims`). A `user_id` claim of type `float64` makes
`verifyToken` succeed with the conversion `int64(v)`, always a 64-bit integer: it is the
integer part of `v` (fraction discarded) whenever that fits in 64 bits, hence `v` itself
when `v` is a whole number that fits, and an implementation-dependent integer otherwise. A
claim of type `int64` makes it succeed with that integer. A claim of any other type, or no
claim, makes it fail with an error and id 0. -/
theorem C9_subject_claim_normalised (env : Env) (now : Time) (tokenString : String)
    (token : Token) (claims : MapClaims)
    (hnonempty : tokenString ≠ "")
    (hparse : env.jwtParse now tokenString verifyToken.keyFunc = .ok token)
    (hvalid : token.Valid = true)
    (hclaims : token.Claims = .mapClaims claims) :
    (∀ v, MapClaims.get claims "user_id" = some (.float64 v) →
      verifyToken env now tokenString = (v.toInt64 env, none) ∧
      (minInt64 ≤ v.toInt64 env ∧ v.toInt64 env ≤ maxInt64) ∧
      (∀ n, v.trunc = some n → minInt64 ≤ n → n ≤ maxInt64 →
        verifyToken env now tokenString = (n, none)) ∧
      (∀ m e, v = .finite m e → v.isIntegral = true →
        ∃ n, ((0 ≤ e → n = m * 2 ^ e.toNat) ∧ (e < 0 → n * 2 ^ (-e).toNat = m)) ∧
          (minInt64 ≤ n → n ≤ maxInt64 → verifyToken env now tokenString = (n, none)))) ∧
    (∀ n, MapClaims.get claims "user_id" = some (.int64 n) →
      verifyToken env now tokenString = (n, none)) ∧
    (∀ c, MapClaims.get claims "user_id" = some c →
      (∀ v, c ≠ .float64 v) → (∀ n, c ≠ .int64 n) →
      ∃ err, verifyToken env now tokenString = (0, some err)) ∧
    (MapClaims.get claims "user_id" = none →
      ∃ err, verifyToken env now tokenString = (0, some err)) := by
  have hstep : verifyToken env now tokenString =
      (match MapClaims.get claims "user_id" with
        | Option.none => (0, some (.errorf "user_id claim is missing"))
        | some (.float64 v) => (v.toInt64 env, Option.none)
        | some (.int64 v) => (v, Option.none)
        | some v => (0, some (.errorf ("user_id must be a number, got " ++ v.typeName)))) := by
    simp [verifyToken, hnonempty, hparse, hvalid, hclaims]
  refine ⟨?_, ?_, ?_, ?_⟩
  · intro v hv
    have h1 : verifyToken env now tokenString = (v.toInt64 env, none) := by
      rw [hstep, hv]
    have h2 : ∀ n, v.trunc = some n → minInt64 ≤ n → n ≤ maxInt64 →
        verifyToken env now tokenString = (n, none) := by
      intro n hn hlo hhi
      rw [h1]
      simp [Float64.toInt64, hn, hlo, hhi]
    refine ⟨h1, Float64.toInt64_in_range env v, h2, ?_⟩
    intro m e hv' hwhole
    subst hv'
    obtain ⟨n, hn, hvalue⟩ := Float64.trunc_of_whole m e hwhole
    exact ⟨n, hvalue, h2 n hn⟩
  · intro n hn
    rw [hstep, hn]
  · intro c hc hnf hni
    rw [hstep, hc]
    cases c with
    | float64 v => exact absurd rfl (hnf v)
    | int64 n => exact absurd rfl (hni n)
    | string s => exact ⟨_, rfl⟩
    | bool b => exact ⟨_, rfl⟩
    | null => exact ⟨_, rfl⟩
    | array => exact ⟨_, rfl⟩
    | object => exact ⟨_, rfl⟩
  · intro hmiss
    rw [hstep, hmiss]
    exact ⟨_, rfl⟩

/-- Witness of C9: the token whose `user_id` claim is the double 7 verifies as user 7. -/
theorem C9_subject_claim_normalised_witness :
    verifyToken demoEnv ⟨5⟩ "user_id.float.7" = (7, none) :=
  ((C9_subject_claim_normalised demoEnv ⟨5⟩ "user_id.float.7"
      { Method := .HS256,
        Claims := .mapClaims [("user_id", .float64 (.finite 7 0)),
                              ("exp", .float64 (.finite 3600 0))],
        Valid := true }
      [("user_id", .float64 (.finite 7 0)), ("exp", .float64 (.finite 3600 0))]
      (by decide) rfl rfl rfl).1 (.finite 7 0) rfl).2.2.1 7 rfl (by decide) (by decide)

/-! ## C6, C7, C8: the statements of `ListTasks` and `SearchTasks` -/

/-- When `ListTasks` builds a statement, its text is the rendering of `listSelect` for the
presence pattern of the filters, and the first bound argument is the owner id. -/
theorem ListTasks_statement_shape (env : Env) (userID : Int) (status : Option Int)
    (dueDateFrom dueDateTo : Option String) (pageSize pageToken : Int)
    (q : String) (args : List SqlArg)
    (h : Storage.ListTasks.statement env userID status dueDateFrom dueDateTo pageSize pageToken
      = .ok (q, args)) :
    q = (listSelect status.isSome dueDateFrom.isSome dueDateTo.isSome).render ∧
    ∃ rest, args = .int64 userID :: rest := by
  cases status <;> cases dueDateFrom <;> cases dueDateTo <;>
    simp only [Storage.ListTasks.statement, bind, Except.bind, pure, Except.pure] at h
  all_goals repeat' (split at h)
  all_goals cases h
  all_goals exact ⟨rfl, _, rfl⟩

/-- The engine recognises every statement of `ListTasks`. -/
theorem parseSelect_listSelect (hasStatus hasFrom hasTo : Bool) :
    parseSelect (listSelect hasStatus hasFrom hasTo).render
      = some (listSelect hasStatus hasFrom hasTo) := by
  revert hasStatus hasFrom hasTo
  decide

/-- The text `SearchTasks` prepares is the rendering of `searchSelect`, which the engine
recognises. -/
theorem SearchTasks_query_shape :
    Storage.SearchTasks.query = searchSelect.render ∧
    parseSelect Storage.SearchTasks.query = some searchSelect := by
  decide

/-- The statements of `ListTasks` start their conjunction with the owner predicate. -/
theorem listSelect_conds (hasStatus hasFrom hasTo : Bool) :
    ∃ rest, (listSelect hasStatus hasFrom hasTo).conds = Cond.userIdEq 1 :: rest :=
  ⟨_, rfl⟩

/-- A statement whose conjunction contains `user_id = $1`, run with the owner id as first
argument, selects only rows of that owner. -/
theorem selected_rows_have_owner (stmt : SelectStmt) (rest : List Cond) (userID : Int)
    (args : List SqlArg) (rows : List Task) (row : Task)
    (hconds : stmt.conds = Cond.userIdEq 1 :: rest)
    (hrow : row ∈ stmt.selected (.int64 userID :: args) rows) :
    row.UserID = userID := by
  unfold SelectStmt.selected at hrow
  rw [List.mem_filter, hconds, List.all_cons, Bool.and_eq_true] at hrow
  have h := hrow.2.1
  simpa [Cond.holds, placeholder, SqlArg.asInt] using h

/-- The rows an execution returns are among the selected rows. -/
theorem run_rows_are_selected (stmt : SelectStmt) (args : List SqlArg) (rows out : List Task)
    (hrun : stmt.run args rows = .ok out) (row : Task) (hrow : row ∈ out) :
    row ∈ stmt.selected args rows := by
  unfold SelectStmt.run at hrun
  split at hrun
  · cases hrun
  · split at hrun
    · split at hrun
      · cases hrun
      · split at hrun
        · cases hrun
        · cases hrun
          exact List.mem_of_mem_drop (List.mem_of_mem_take hrow)
    · cases hrun

/-- The rows `queryTasks` returns are among the rows selected by the statement the engine
recognised in the text. -/
theorem queryTasks_rows_are_selected (db : DB) (op q : String) (args : List SqlArg)
    (stmt : SelectStmt) (hparse : parseSelect q = some stmt) (row : Task)
    (hrow : row ∈ (Storage.queryTasks db op q args).1) :
    row ∈ stmt.selected args db.tasks := by
  unfold Storage.queryTasks at hrow
  cases hfault : db.fault with
  | some err => simp [hfault] at hrow
  | none =>
    simp only [hfault, hparse] at hrow
    cases hrun : stmt.run args db.tasks with
    | error err => simp [hrun] at hrow
    | ok out =>
      simp only [hrun] at hrow
      exact run_rows_are_selected stmt args db.tasks out hrun row hrow

/-- C6. Whatever the owner id, the filters, the search string and the paging values: a
statement built by `ListTasks` is the rendering, recognised by the engine, of a
conjunction that starts with `user_id = $1` and joins every other predicate to it by
`AND`; the statement of `SearchTasks` is the rendering of the conjunction of `user_id = $1`
and the parenthesised `OR` of the two `ILIKE` predicates; in both the first bound
argument is the owner id; every row either statement selects, and every row `ListTasks`
or `SearchTasks` returns from any store, belongs to that owner. -/
theorem C6_owner_predicate_always_conjoined (env : Env) (userID : Int) (status : Option Int)
    (dueDateFrom dueDateTo : Option String) (query : String) (pageSize pageToken : Int) :
    (∀ q args,
      Storage.ListTasks.statement env userID status dueDateFrom dueDateTo pageSize pageToken
        = .ok (q, args) →
      ∃ stmt rest, stmt.conds = Cond.userIdEq 1 :: rest ∧ q = stmt.render ∧
        parseSelect q = some stmt ∧ args.head? = some (.int64 userID) ∧
        ∀ rows row, row ∈ stmt.selected args rows → row.UserID = userID) ∧
    (∃ stmt, stmt.conds = [Cond.userIdEq 1, Cond.titleOrDescILike 2] ∧
      (Storage.SearchTasks.statement userID query pageSize pageToken).1 = stmt.render ∧
      parseSelect (Storage.SearchTasks.statement userID query pageSize pageToken).1 = some stmt ∧
      (Storage.SearchTasks.statement userID query pageSize pageToken).2.head?
        = some (.int64 userID) ∧
      ∀ rows row,
        row ∈ stmt.selected (Storage.SearchTasks.statement userID query pageSize pageToken).2 rows →
        row.UserID = userID) ∧
    (∀ db row,
      row ∈ (Storage.ListTasks env db userID status dueDateFrom dueDateTo pageSize pageToken).1 →
      row.UserID = userID) ∧
    (∀ db row, row ∈ (Storage.SearchTasks db userID query pageSize pageToken).1 →
      row.UserID = userID) := by
  refine ⟨?_, ?_, ?_, ?_⟩
  · intro q args h
    obtain ⟨hq, rest, hargs⟩ := ListTasks_statement_shape env userID status dueDateFrom
      dueDateTo pageSize pageToken q args h
    obtain ⟨cs, hcs⟩ := listSelect_conds status.isSome dueDateFrom.isSome dueDateTo.isSome
    refine ⟨listSelect status.isSome dueDateFrom.isSome dueDateTo.isSome, cs, hcs, hq, ?_, ?_, ?_⟩
    · rw [hq]
      exact parseSelect_listSelect _ _ _
    · rw [hargs]
      rfl
    · intro rows row hrow
      rw [hargs] at hrow
      exact selected_rows_have_owner _ cs userID rest rows row hcs hrow
  · refine ⟨searchSelect, rfl, SearchTasks_query_shape.1, SearchTasks_query_shape.2, rfl, ?_⟩
    intro rows row hrow
    exact selected_rows_have_owner searchSelect _ userID _ rows row rfl hrow
  · intro db row hrow
    unfold Storage.ListTasks at hrow
    cases h : Storage.ListTasks.statement env userID status dueDateFrom dueDateTo pageSize
        pageToken with
    | error err => simp [h] at hrow
    | ok qa =>
      obtain ⟨q, args⟩ := qa
      simp only [h] at hrow
      obtain ⟨hq, rest, hargs⟩ := ListTasks_statement_shape env userID status dueDateFrom
        dueDateTo pageSize pageToken q args h
      obtain ⟨cs, hcs⟩ := listSelect_conds status.isSome dueDateFrom.isSome dueDateTo.isSome
      have hparse : parseSelect q
          = some (listSelect status.isSome dueDateFrom.isSome dueDateTo.isSome) := by
        rw [hq]
        exact parseSelect_listSelect _ _ _
      have hsel := queryTasks_rows_are_selected db _ q args _ hparse row hrow
      rw [hargs] at hsel
      exact selected_rows_have_owner _ cs userID rest db.tasks row hcs hsel
  · intro db row hrow
    unfold Storage.SearchTasks at hrow
    have hsel := queryTasks_rows_are_selected db _ _ _ searchSelect SearchTasks_query_shape.2
      row hrow
    exact selected_rows_have_owner searchSelect _ userID _ db.tasks row rfl hsel

/-- Witness of C6: user 7 lists and searches a store that also holds a matching task of
user 2; only rows of user 7 come back. -/
theorem C6_owner_predicate_always_conjoined_witness :
    Storage.ListTasks.statement demoEnv 7 (some 1) none none 10 0
      = .ok ("SELECT id, user_id, title, description, due_date, status, created_at, updated_at FROM tasks WHERE user_id = $1 AND status = $2 LIMIT $3 OFFSET $4",
             [.int64 7, .int32 1, .int32 10, .int32 0]) ∧
    ((Storage.ListTasks demoEnv demoDB 7 (some 1) none none 10 0).1.map (fun t => t.ID) = [1]) ∧
    ((Storage.SearchTasks demoDB 7 "REPORT" 10 0).1.map (fun t => t.ID) = [1]) ∧
    (∀ row, row ∈ (Storage.ListTasks demoEnv demoDB 7 (some 1) none none 10 0).1 →
      row.UserID = 7) ∧
    (∀ row, row ∈ (Storage.SearchTasks demoDB 7 "REPORT" 10 0).1 → row.UserID = 7) :=
  ⟨rfl, by decide, by decide,
   fun row h => (C6_owner_predicate_always_conjoined demoEnv 7 (some 1) none none "REPORT"
     10 0).2.2.1 demoDB row h,
   fun row h => (C6_owner_predicate_always_conjoined demoEnv 7 (some 1) none none "REPORT"
     10 0).2.2.2 demoDB row h⟩

/-- C7. Two calls of `ListTasks` with the same presence pattern of the three filters that
both build a statement build the same text, whatever the owner ids, filter values and
paging values: the text is the rendering of `listSelect` for the pattern. The text of
`SearchTasks` is the same for all owner ids, search strings and paging values. -/
theorem C7_statement_text_ignores_values (env : Env) (userID₁ userID₂ : Int)
    (status₁ status₂ : Option Int) (from₁ from₂ to₁ to₂ : Option String)
    (pageSize₁ pageToken₁ pageSize₂ pageToken₂ : Int) (search₁ search₂ : String)
    (q₁ q₂ : String) (args₁ args₂ : List SqlArg)
    (hstatus : status₁.isSome = status₂.isSome)
    (hfrom : from₁.isSome = from₂.isSome)
    (hto : to₁.isSome = to₂.isSome)
    (h₁ : Storage.ListTasks.statement env userID₁ status₁ from₁ to₁ pageSize₁ pageToken₁
      = .ok (q₁, args₁))
    (h₂ : Storage.ListTasks.statement env userID₂ status₂ from₂ to₂ pageSize₂ pageToken₂
      = .ok (q₂, args₂)) :
    q₁ = q₂ ∧
    q₁ = (listSelect status₁.isSome from₁.isSome to₁.isSome).render ∧
    (Storage.SearchTasks.statement userID₁ search₁ pageSize₁ pageToken₁).1
      = (Storage.SearchTasks.statement userID₂ search₂ pageSize₂ pageToken₂).1 := by
  have e₁ := (ListTasks_statement_shape env userID₁ status₁ from₁ to₁ pageSize₁ pageToken₁
    q₁ args₁ h₁).1
  have e₂ := (ListTasks_statement_shape env userID₂ status₂ from₂ to₂ pageSize₂ pageToken₂
    q₂ args₂ h₂).1
  refine ⟨?_, e₁, rfl⟩
  rw [e₁, e₂, hstatus, hfrom, hto]

/-- Witness of C7: two calls that differ in every value and agree in the presence
pattern (status and lower bound present, upper bound absent). -/
theorem C7_statement_text_ignores_values_witness :
    Storage.ListTasks.statement demoEnv 7 (some 1) (some "1970-01-01T00:00:00Z") none 10 0
      = .ok ("SELECT id, user_id, title, description, due_date, status, created_at, updated_at FROM tasks WHERE user_id = $1 AND status = $2 AND due_date >= $3 LIMIT $4 OFFSET $5",
             [.int64 7, .int32 1, .time ⟨0⟩, .int32 10, .int32 0]) ∧
    Storage.ListTasks.statement demoEnv 2 (some 3) (some "1970-01-02T00:00:00Z") none 5 4
      = .ok ("SELECT id, user_id, title, description, due_date, status, created_at, updated_at FROM tasks WHERE user_id = $1 AND status = $2 AND due_date >= $3 LIMIT $4 OFFSET $5",
             [.int64 2, .int32 3, .time ⟨86400000000000⟩, .int32 5, .int32 20]) ∧
    (Storage.SearchTasks.statement 7 "milk" 10 0).1
      = (Storage.SearchTasks.statement 2 "100% _done_" 5 4).1 :=
  ⟨rfl, rfl,
   (C7_statement_text_ignores_values demoEnv 7 2 (some 1) (some 3)
     (some "1970-01-01T00:00:00Z") (some "1970-01-02T00:00:00Z") none none 10 0 5 4
     "milk" "100% _done_" _ _ _ _ rfl rfl rfl rfl rfl).2.2⟩

/-- The handler `ListTasks` runs the statement `TaskServer.ListTasks.statement` builds. -/
theorem TaskServer_ListTasks_runs_statement (env : Env) (now : Time) (db : DB) (ctx : Context)
    (req : ListTasksRequest) (userID : Int)
    (hauth : GetUserIDFromContext env now ctx = (userID, none)) :
    TaskServer.ListTasks env now db ctx req =
      (match TaskServer.ListTasks.statement env userID req with
        | .error _ => (none, some (.status .Internal "failed to list tasks"))
        | .ok (q, args) =>
          match Storage.queryTasks db "storage.postgres.ListTasks" q args with
          | (_, some _) => (none, some (.status .Internal "failed to list tasks"))
          | (tasks, none) =>
            (some { Tasks := tasks.map convertTaskToProto,
                    NextPageToken := wrapInt32 (req.PageToken + 1) }, none)) := by
  simp only [TaskServer.ListTasks, hauth, TaskServer.ListTasks.statement,
    TaskServer.ListTasks.filters, TaskService.ListTasks, TaskService.ListTasks.filters,
    Storage.ListTasks]
  cases Storage.ListTasks.statement env userID (some req.Status)
      (some (env.formatRFC3339 (match req.DueDateFrom with
        | some ts => ts
        | none => Time.zero)))
      (some (env.formatRFC3339 (match req.DueDateTo with
        | some ts => ts
        | none => Time.zero))) req.PageSize req.PageToken with
  | error err => rfl
  | ok qa => rfl

/-- Whatever the request, a statement the handler `ListTasks` makes the storage build
carries all three optional predicates. -/
theorem handler_statement_has_every_filter (env : Env) (userID : Int) (req : ListTasksRequest)
    (q : String) (args : List SqlArg)
    (h : TaskServer.ListTasks.statement env userID req = .ok (q, args)) :
    q = (listSelect true true true).render := by
  simp only [TaskServer.ListTasks.statement, TaskServer.ListTasks.filters,
    TaskService.ListTasks.filters] at h
  exact (ListTasks_statement_shape env userID _ _ _ _ _ q args h).1

/-- C8 (the code departs from the claim). User 7, who owns two tasks, sends a `ListTasks`
request with no status and no due-date bound. The storage, given no filter, would build
the statement with the owner predicate alone; but the handler hands it the status 0 and
the zero instant as both bounds, so the statement carries all three optional predicates,
and the answer lists none of the user's tasks. -/
theorem C8_unfiltered_request_is_filtered :
    Storage.ListTasks.statement demoEnv 7 none none none 10 0
      = .ok ("SELECT id, user_id, title, description, due_date, status, created_at, updated_at FROM tasks WHERE user_id = $1 LIMIT $2 OFFSET $3",
             [.int64 7, .int32 10, .int32 0]) ∧
    TaskServer.ListTasks.statement demoEnv 7
        { Status := 0, DueDateFrom := none, DueDateTo := none, PageSize := 10, PageToken := 0 }
      = .ok ("SELECT id, user_id, title, description, due_date, status, created_at, updated_at FROM tasks WHERE user_id = $1 AND status = $2 AND due_date >= $3 AND due_date <= $4 LIMIT $5 OFFSET $6",
             [.int64 7, .int32 0, .time Time.zero, .time Time.zero, .int32 10, .int32 0]) ∧
    (Storage.ListTasks demoEnv demoDB 7 none none none 10 0).1.map (fun t => t.ID) = [1, 3] ∧
    TaskServer.ListTasks demoEnv ⟨5⟩ demoDB (ctxWithAuthorization "Bearer user_id.float.7")
        { Status := 0, DueDateFrom := none, DueDateTo := none, PageSize := 10, PageToken := 0 }
      = (some { Tasks := [], NextPageToken := 1 }, none) := by
  refine ⟨rfl, rfl, by decide, by decide⟩

/-! ## C11, C15: the due date of `CreateTask` and `UpdateTask` -/

/-- The storage method `CreateTask`, given a non-empty due date that does not parse, returns
the wrapped parse error and leaves the store as it is. -/
theorem storage_CreateTask_malformed_due_date (env : Env) (now : Time) (db : DB)
    (newID userID : Int) (title description dueDate : String) (status : Int) (err : GoError)
    (hpresent : dueDate ≠ "")
    (hbad : env.parseRFC3339 dueDate = .error err) :
    Storage.CreateTask env now db newID userID title description dueDate status
      = ((0, some (.wrap "storage.postgres.CreateTask: invalid due date format: " err)), db) := by
  simp [Storage.CreateTask, hpresent, hbad]

/-- C11, counterexample. An authenticated `CreateTask` request carries an instant of the
year 10000; its RFC 3339 text is not empty and does not parse; the handler answers
`Internal`, which is not `InvalidArgument`. -/
theorem C11_malformed_due_date_not_InvalidArgument :
    demoEnv.formatRFC3339 ⟨253402300800000000000⟩ = "10000-01-01T00:00:00Z" ∧
    (∃ err, demoEnv.parseRFC3339 "10000-01-01T00:00:00Z" = .error err) ∧
    TaskServer.CreateTask demoEnv ⟨5⟩ demoDB 4 (ctxWithAuthorization "Bearer user_id.float.7")
        { Title := "a", Description := "b", DueDate := some ⟨253402300800000000000⟩ }
      = ((none, some (.status .Internal "failed to create task")), demoDB) ∧
    ¬ ∃ msg, (TaskServer.CreateTask demoEnv ⟨5⟩ demoDB 4
        (ctxWithAuthorization "Bearer user_id.float.7")
        { Title := "a", Description := "b", DueDate := some ⟨253402300800000000000⟩ }).1.2
      = some (.status .InvalidArgument msg) := by
  refine ⟨by decide, ⟨_, rfl⟩, by decide, ?_⟩
  rintro ⟨msg, h⟩
  have h2 : (TaskServer.CreateTask demoEnv ⟨5⟩ demoDB 4
        (ctxWithAuthorization "Bearer user_id.float.7")
        { Title := "a", Description := "b", DueDate := some ⟨253402300800000000000⟩ }).1.2
      = some (.status .Internal "failed to create task") := by decide
  rw [h2] at h
  cases h

/-- C11, amended. A `CreateTask` call whose due-date text is present and is not a valid
RFC 3339 instant fails before any row is inserted: the storage returns the parse error and
the store is unchanged; for an authenticated request that carries such a due date the
failure surfaces to the RPC caller as `Internal`. -/
theorem C11_malformed_due_date_fails_as_Internal (env : Env) (now : Time) (db : DB)
    (newID : Int) (ctx : Context) (req : CreateTaskRequest) (userID : Int) (t : Time)
    (err : GoError)
    (hauth : GetUserIDFromContext env now ctx = (userID, none))
    (hdue : req.DueDate = some t)
    (hzero : t ≠ Time.zero)
    (hpresent : env.formatRFC3339 t ≠ "")
    (hbad : env.parseRFC3339 (env.formatRFC3339 t) = .error err) :
    Storage.CreateTask env now db newID userID req.Title req.Description
        (env.formatRFC3339 t) TASK_STATUS_OPEN
      = ((0, some (.wrap "storage.postgres.CreateTask: invalid due date format: " err)), db) ∧
    TaskServer.CreateTask env now db newID ctx req
      = ((none, some (.status .Internal "failed to create task")), db) := by
  have hstore := storage_CreateTask_malformed_due_date env now db newID userID req.Title
    req.Description (env.formatRFC3339 t) TASK_STATUS_OPEN err hpresent hbad
  refine ⟨hstore, ?_⟩
  have hnz : t.IsZero = false := by simp [Time.IsZero, hzero]
  simp [TaskServer.CreateTask, hauth, hdue, TaskService.CreateTask, hnz, hstore]

/-- Witness of C11: the request of the counterexample. -/
theorem C11_malformed_due_date_fails_as_Internal_witness :
    TaskServer.CreateTask demoEnv ⟨5⟩ demoDB 4 (ctxWithAuthorization "Bearer user_id.float.7")
        { Title := "a", Description := "b", DueDate := some ⟨253402300800000000000⟩ }
      = ((none, some (.status .Internal "failed to create task")), demoDB) :=
  (C11_malformed_due_date_fails_as_Internal demoEnv ⟨5⟩ demoDB 4
    (ctxWithAuthorization "Bearer user_id.float.7")
    { Title := "a", Description := "b", DueDate := some ⟨253402300800000000000⟩ } 7
    ⟨253402300800000000000⟩
    (.errorf "parsing time \"10000-01-01T00:00:00Z\": cannot parse")
    (by decide) rfl (by decide) (by decide) rfl).2

/-- The store after an authenticated `CreateTask` is the store the service call leaves. -/
theorem CreateTask_store_after (env : Env) (now : Time) (db : DB) (newID : Int)
    (ctx : Context) (req : CreateTaskRequest) (userID : Int)
    (hauth : GetUserIDFromContext env now ctx = (userID, none)) :
    (TaskServer.CreateTask env now db newID ctx req).2
      = (TaskService.CreateTask env now db newID userID req.Title req.Description
          (match req.DueDate with
            | some ts => ts
            | none => Time.zero) TASK_STATUS_OPEN).2 := by
  simp only [TaskServer.CreateTask, hauth]
  rcases TaskService.CreateTask env now db newID userID req.Title req.Description
      (match req.DueDate with
        | some ts => ts
        | none => Time.zero) TASK_STATUS_OPEN with ⟨⟨taskID, err⟩, db'⟩
  cases err with
  | some e => rfl
  | none =>
    simp only
    cases TaskService.GetTask db' userID taskID <;> rfl

/-- The store after an authenticated `UpdateTask` is the store the service call leaves. -/
theorem UpdateTask_store_after (env : Env) (now : Time) (db : DB)
    (ctx : Context) (req : UpdateTaskRequest) (userID : Int)
    (hauth : GetUserIDFromContext env now ctx = (userID, none)) :
    (TaskServer.UpdateTask env now db ctx req).2
      = (TaskService.UpdateTask env now db userID req.Id req.Title req.Description
          (match req.DueDate with
            | some ts => ts
            | none => Time.zero) req.Status).1 := by
  simp only [TaskServer.UpdateTask, hauth]
  rcases TaskService.UpdateTask env now db userID req.Id req.Title req.Description
      (match req.DueDate with
        | some ts => ts
        | none => Time.zero) req.Status with ⟨db', err⟩
  cases err with
  | some e =>
    simp only
    split <;> rfl
  | none =>
    simp only
    cases TaskService.GetTask db' userID req.Id <;> rfl

/-- The zero instant, and only it, is what `IsZero` reports. -/
theorem Time.IsZero_iff (t : Time) : t.IsZero = true ↔ t = Time.zero := by
  simp [Time.IsZero]

/-- C15, counterexample. Authenticated requests that carry the due date
0001-01-01T00:00:00Z: `CreateTask` inserts a row whose due date is `NULL`, and `UpdateTask`
sets the due date of the task, which was not `NULL`, to `NULL`. -/
theorem C15_zero_instant_is_stored_as_NULL :
    (TaskServer.CreateTask demoEnv ⟨5⟩ demoDB 4 (ctxWithAuthorization "Bearer user_id.float.7")
        { Title := "a", Description := "b", DueDate := some Time.zero }).2.tasks.map
      (fun task => (task.ID, task.DueDate))
      = [(1, none), (2, none), (3, some ⟨86400000000000⟩), (4, none)] ∧
    (TaskServer.UpdateTask demoEnv ⟨5⟩ demoDB (ctxWithAuthorization "Bearer user_id.float.7")
        { Id := 3, Title := "a", Description := "b", DueDate := some Time.zero,
          Status := 3 }).2.tasks.map
      (fun task => (task.ID, task.DueDate))
      = [(1, none), (2, none), (3, none)] := by
  refine ⟨by decide, by decide⟩

/-- C15, amended. For an authenticated request and a healthy store. If the request carries
a due-date instant other than 0001-01-01T00:00:00Z whose RFC 3339 text is not empty and
parses, `CreateTask` inserts a row with that parsed, non-`NULL` due date and `UpdateTask`
writes it to the caller's task. If the request carries no due date, or carries
0001-01-01T00:00:00Z, the due date handed to the store is `NULL`. And when the formatter
never writes the empty text, a `NULL` due date in the row `CreateTask` inserted means the
request carried none or carried 0001-01-01T00:00:00Z. -/
theorem C15_due_date_absent_or_zero_is_NULL (env : Env) (now : Time) (db : DB) (newID : Int)
    (ctx : Context) (create : CreateTaskRequest) (update : UpdateTaskRequest) (userID : Int)
    (hauth : GetUserIDFromContext env now ctx = (userID, none))
    (hfault : db.fault = none) :
    (∀ t t', create.DueDate = some t → t ≠ Time.zero → env.formatRFC3339 t ≠ "" →
      env.parseRFC3339 (env.formatRFC3339 t) = .ok t' →
      (TaskServer.CreateTask env now db newID ctx create).2.tasks
        = db.tasks ++ [{ ID := newID, UserID := userID, Title := create.Title,
                         Description := create.Description, DueDate := some t',
                         Status := TASK_STATUS_OPEN, CreatedAt := now, UpdatedAt := now }]) ∧
    ((create.DueDate = none ∨ create.DueDate = some Time.zero) →
      (TaskServer.CreateTask env now db newID ctx create).2.tasks
        = db.tasks ++ [{ ID := newID, UserID := userID, Title := create.Title,
                         Description := create.Description, DueDate := none,
                         Status := TASK_STATUS_OPEN, CreatedAt := now, UpdatedAt := now }]) ∧
    ((∀ t, env.formatRFC3339 t ≠ "") →
      ∀ row, (TaskServer.CreateTask env now db newID ctx create).2.tasks = db.tasks ++ [row] →
        row.DueDate = none →
        create.DueDate = none ∨ create.DueDate = some Time.zero) ∧
    (∀ t t', update.DueDate = some t → t ≠ Time.zero → env.formatRFC3339 t ≠ "" →
      env.parseRFC3339 (env.formatRFC3339 t) = .ok t' →
      (TaskServer.UpdateTask env now db ctx update).2.tasks
        = db.tasks.map (fun task =>
            if ownsTask update.Id userID task then
              { task with Title := update.Title, Description := update.Description,
                          DueDate := some t', Status := update.Status, UpdatedAt := now }
            else task)) ∧
    ((update.DueDate = none ∨ update.DueDate = some Time.zero) →
      (TaskServer.UpdateTask env now db ctx update).2.tasks
        = db.tasks.map (fun task =>
            if ownsTask update.Id userID task then
              { task with Title := update.Title, Description := update.Description,
                          DueDate := none, Status := update.Status, UpdatedAt := now }
            else task)) := by
  have hzero : Time.zero.IsZero = true := (Time.IsZero_iff _).mpr rfl
  refine ⟨?_, ?_, ?_, ?_, ?_⟩
  · intro t t' hdue hnz hpresent hparse
    have hz : t.IsZero = false := by simp [Time.IsZero, hnz]
    rw [CreateTask_store_after env now db newID ctx create userID hauth, hdue]
    simp [TaskService.CreateTask, Storage.CreateTask, hz, hpresent, hparse, hfault]
  · intro hdue
    rw [CreateTask_store_after env now db newID ctx create userID hauth]
    rcases hdue with hdue | hdue <;> rw [hdue] <;>
      simp [TaskService.CreateTask, Storage.CreateTask, hzero, hfault]
  · intro hformat row hrow hnull
    rw [CreateTask_store_after env now db newID ctx create userID hauth] at hrow
    cases hdue : create.DueDate with
    | none => exact Or.inl rfl
    | some t =>
      right
      by_cases hz : t = Time.zero
      · rw [hz]
      · exfalso
        have hzf : t.IsZero = false := by simp [Time.IsZero, hz]
        rw [hdue] at hrow
        simp only [TaskService.CreateTask, Storage.CreateTask, hzf, Bool.not_false, if_true,
          ne_eq, hformat t, not_false_eq_true] at hrow
        cases hparse : env.parseRFC3339 (env.formatRFC3339 t) with
        | error err =>
          simp only [hparse] at hrow
          have hlen := congrArg List.length hrow
          simp at hlen
        | ok t' =>
          simp only [hparse, hfault] at hrow
          have hlast := List.append_cancel_left hrow
          simp only [List.cons.injEq, and_true] at hlast
          rw [← hlast] at hnull
          cases hnull
  · intro t t' hdue hnz hpresent hparse
    have hz : t.IsZero = false := by simp [Time.IsZero, hnz]
    rw [UpdateTask_store_after env now db ctx update userID hauth, hdue]
    simp only [TaskService.UpdateTask, Storage.UpdateTask, Storage.UpdateTask.parsedDueDate, hz,
      Bool.not_false, if_true, ne_eq, hpresent, not_false_eq_true, hparse, hfault]
    split <;> rfl
  · intro hdue
    rw [UpdateTask_store_after env now db ctx update userID hauth]
    have hnull : Storage.UpdateTask.parsedDueDate env "" = .ok none := by
      simp [Storage.UpdateTask.parsedDueDate]
    have hstore : (TaskService.UpdateTask env now db userID update.Id update.Title
        update.Description Time.zero update.Status).1.tasks
        = db.tasks.map (fun task =>
            if ownsTask update.Id userID task then
              { task with Title := update.Title, Description := update.Description,
                          DueDate := none, Status := update.Status, UpdatedAt := now }
            else task) := by
      simp only [TaskService.UpdateTask, hzero, Bool.not_true, Bool.false_eq_true, if_false,
        Storage.UpdateTask, hnull, hfault]
      split <;> rfl
    rcases hdue with hdue | hdue <;> rw [hdue] <;> exact hstore


/-- Witness of C15: a request with the due date 1970-01-01T00:00:00Z stores that instant, a
request without due date stores `NULL`. -/
theorem C15_due_date_absent_or_zero_is_NULL_witness :
    (TaskServer.CreateTask demoEnv ⟨5⟩ demoDB 4 (ctxWithAuthorization "Bearer user_id.float.7")
        { Title := "a", Description := "b", DueDate := some ⟨0⟩ }).2.tasks
      = demoDB.tasks ++ [{ ID := 4, UserID := 7, Title := "a", Description := "b",
                           DueDate := some ⟨0⟩, Status := TASK_STATUS_OPEN,
                           CreatedAt := ⟨5⟩, UpdatedAt := ⟨5⟩ }] ∧
    (TaskServer.UpdateTask demoEnv ⟨5⟩ demoDB (ctxWithAuthorization "Bearer user_id.float.7")
        { Id := 3, Title := "a", Description := "b", DueDate := none, Status := 3 }).2.tasks
      = demoDB.tasks.map (fun task =>
          if ownsTask 3 7 task then
            { task with Title := "a", Description := "b", DueDate := none, Status := 3,
                        UpdatedAt := ⟨5⟩ }
          else task) :=
  ⟨(C15_due_date_absent_or_zero_is_NULL demoEnv ⟨5⟩ demoDB 4
      (ctxWithAuthorization "Bearer user_id.float.7")
      { Title := "a", Description := "b", DueDate := some ⟨0⟩ }
      { Id := 3, Title := "a", Description := "b", DueDate := none, Status := 3 } 7
      (by decide) rfl).1 ⟨0⟩ ⟨0⟩ rfl (by decide) (by decide) rfl,
   (C15_due_date_absent_or_zero_is_NULL demoEnv ⟨5⟩ demoDB 4
      (ctxWithAuthorization "Bearer user_id.float.7")
      { Title := "a", Description := "b", DueDate := some ⟨0⟩ }
      { Id := 3, Title := "a", Description := "b", DueDate := none, Status := 3 } 7
      (by decide) rfl).2.2.2.2 (Or.inl rfl)⟩

/-! ## C16: required fields of `Register` and `Login` -/

/-- C16. Whatever the auth service and its state: `Register` with an empty username,
password or email, and `Login` with an empty email or password, return `InvalidArgument`
and leave the state untouched (the service was not called); with all required fields
non-empty neither handler returns `InvalidArgument`. -/
theorem C16_required_fields_checked_first {σ : Type} (svc : AuthService σ) (ctx : Context)
    (register : RegisterRequest) (login : LoginRequest) (s : σ) :
    ((register.Username = "" ∨ register.Password = "" ∨ register.Email = "") →
      ∃ msg, AuthServer.Register svc ctx register s
        = ((none, some (.status .InvalidArgument msg)), s)) ∧
    ((login.Email = "" ∨ login.Password = "") →
      ∃ msg, AuthServer.Login svc ctx login s
        = ((none, some (.status .InvalidArgument msg)), s)) ∧
    (register.Username ≠ "" → register.Password ≠ "" → register.Email ≠ "" →
      ∀ msg, (AuthServer.Register svc ctx register s).1.2
        ≠ some (.status .InvalidArgument msg)) ∧
    (login.Email ≠ "" → login.Password ≠ "" →
      ∀ msg, (AuthServer.Login svc ctx login s).1.2
        ≠ some (.status .InvalidArgument msg)) := by
  refine ⟨?_, ?_, ?_, ?_⟩
  · intro h
    unfold AuthServer.Register
    by_cases hu : register.Username = ""
    · exact ⟨"username is required", by simp [hu]⟩
    · by_cases hp : register.Password = ""
      · exact ⟨"password is required", by simp [hu, hp]⟩
      · have he : register.Email = "" := by
          rcases h with h | h | h
          · exact absurd h hu
          · exact absurd h hp
          · exact h
        exact ⟨"email is required", by simp [hu, hp, he]⟩
  · intro h
    unfold AuthServer.Login
    by_cases he : login.Email = ""
    · exact ⟨"email is required", by simp [he]⟩
    · have hp : login.Password = "" := by
        rcases h with h | h
        · exact absurd h he
        · exact h
      exact ⟨"password is required", by simp [he, hp]⟩
  · intro hu hp he msg
    simp only [AuthServer.Register, hu, hp, he, if_false]
    rcases svc.RegisterNewUser ctx register.Username register.Email register.Password s with
      ⟨⟨userID, err⟩, s'⟩
    cases err with
    | none => simp
    | some e =>
      simp only
      split <;> simp
  · intro he hp msg
    simp only [AuthServer.Login, he, hp, if_false]
    rcases svc.Login ctx login.Email login.Password s with ⟨⟨token, err⟩, s'⟩
    cases err with
    | none => simp
    | some e =>
      simp only
      split <;> simp

/-- Witness of C16: with a service that records its calls, a registration without password
and a login without email are refused unrecorded; complete requests reach the service. -/
theorem C16_required_fields_checked_first_witness :
    AuthServer.Register demoAuthService (ctxWithAuthorization "")
        { Username := "ann", Email := "ann@example.org", Password := "" } []
      = ((none, some (.status .InvalidArgument "password is required")), []) ∧
    AuthServer.Login demoAuthService (ctxWithAuthorization "")
        { Email := "", Password := "correct horse" } []
      = ((none, some (.status .InvalidArgument "email is required")), []) ∧
    AuthServer.Register demoAuthService (ctxWithAuthorization "")
        { Username := "ann", Email := "taken@example.org", Password := "pw" } []
      = ((none, some (.status .AlreadyExists "user already exists")), ["RegisterNewUser"]) ∧
    (∀ msg, (AuthServer.Login demoAuthService (ctxWithAuthorization "")
        { Email := "ann@example.org", Password := "wrong" } []).1.2
      ≠ some (.status .InvalidArgument msg)) :=
  ⟨by decide, by decide, by decide,
   (C16_required_fields_checked_first demoAuthService (ctxWithAuthorization "")
      { Username := "ann", Email := "ann@example.org", Password := "" }
      { Email := "ann@example.org", Password := "wrong" } []).2.2.2 (by decide) (by decide)⟩

/-! ## C18: the identity a task handler reads -/

/-- Binding a value in the context does not change what `GetUserIDFromContext` returns: it
reads the incoming metadata only. -/
theorem GetUserIDFromContext_WithValue (env : Env) (now : Time) (ctx : Context)
    (key : String) (val : CtxValue) :
    GetUserIDFromContext env now (ctx.WithValue key val) = GetUserIDFromContext env now ctx :=
  rfl

/-- When `ListTasks` builds a statement, the due-date bounds that are present parse, the
bound arguments are the owner id, the arguments of the filters that are present, the page
size and the wrapped product, and the same text is built for every page size and token. -/
theorem ListTasks_statement_args (env : Env) (userID : Int) (status : Option Int)
    (dueDateFrom dueDateTo : Option String) (pageSize pageToken : Int)
    (q : String) (args : List SqlArg)
    (h : Storage.ListTasks.statement env userID status dueDateFrom dueDateTo pageSize pageToken
      = .ok (q, args)) :
    args = .int64 userID ::
      (Storage.ListTasks.filterArgs env status dueDateFrom dueDateTo ++
        [.int32 pageSize, .int32 (wrapInt32 (pageSize * pageToken))]) ∧
    (Storage.ListTasks.filterArgs env status dueDateFrom dueDateTo).length
      = status.isSome.toNat + dueDateFrom.isSome.toNat + dueDateTo.isSome.toNat ∧
    ∀ pageSize' pageToken',
      Storage.ListTasks.statement env userID status dueDateFrom dueDateTo pageSize' pageToken'
        = .ok (q, .int64 userID ::
            (Storage.ListTasks.filterArgs env status dueDateFrom dueDateTo ++
              [.int32 pageSize', .int32 (wrapInt32 (pageSize' * pageToken'))])) := by
  cases status <;> cases dueDateFrom <;> cases dueDateTo <;>
    simp only [Storage.ListTasks.statement, bind, Except.bind, pure, Except.pure] at h
  all_goals repeat' (split at h)
  all_goals cases h
  all_goals
    refine ⟨?_, ?_, ?_⟩
    · simp [Storage.ListTasks.filterArgs, Storage.ListTasks.timeArg, *]
    · simp [Storage.ListTasks.filterArgs, Storage.ListTasks.timeArg, *]
    · intro pageSize' pageToken'
      simp [Storage.ListTasks.statement, bind, Except.bind, pure, Except.pure,
        Storage.ListTasks.filterArgs, Storage.ListTasks.timeArg, *]

/-- C17. When `ListTasks` reaches statement preparation, with `n` = 3 + the number of
filters present: the placeholders of the text, in order of appearance, are
`$1, $2, ..., $n`; `n` arguments are bound; `$1` is the owner predicate's and is bound to
the owner id; the predicates of the status, lower-bound and upper-bound filters that are
present use the next placeholders in this order and each is bound to the value of its
filter; `LIMIT` uses `$(n-1)`, bound to the page size, and `OFFSET` uses `$n`, bound to the
32-bit product of page size and page token. -/
theorem C17_placeholders_match_arguments (env : Env) (userID : Int) (status : Option Int)
    (dueDateFrom dueDateTo : Option String) (pageSize pageToken : Int)
    (q : String) (args : List SqlArg)
    (h : Storage.ListTasks.statement env userID status dueDateFrom dueDateTo pageSize pageToken
      = .ok (q, args)) :
    q = (listSelect status.isSome dueDateFrom.isSome dueDateTo.isSome).render ∧
    placeholdersIn q.data
      = List.range' 1 (3 + (status.isSome.toNat + dueDateFrom.isSome.toNat
          + dueDateTo.isSome.toNat)) ∧
    args.length
      = 3 + (status.isSome.toNat + dueDateFrom.isSome.toNat + dueDateTo.isSome.toNat) ∧
    (Cond.userIdEq 1 ∈ (listSelect status.isSome dueDateFrom.isSome dueDateTo.isSome).conds ∧
      placeholder args 1 = some (.int64 userID)) ∧
    (∀ st, status = some st →
      Cond.statusEq 2 ∈ (listSelect status.isSome dueDateFrom.isSome dueDateTo.isSome).conds ∧
      placeholder args 2 = some (.int32 st)) ∧
    (∀ s, dueDateFrom = some s → ∃ t, env.parseRFC3339 s = .ok t ∧
      Cond.dueDateGe (2 + status.isSome.toNat)
        ∈ (listSelect status.isSome dueDateFrom.isSome dueDateTo.isSome).conds ∧
      placeholder args (2 + status.isSome.toNat) = some (.time t)) ∧
    (∀ s, dueDateTo = some s → ∃ t, env.parseRFC3339 s = .ok t ∧
      Cond.dueDateLe (2 + status.isSome.toNat + dueDateFrom.isSome.toNat)
        ∈ (listSelect status.isSome dueDateFrom.isSome dueDateTo.isSome).conds ∧
      placeholder args (2 + status.isSome.toNat + dueDateFrom.isSome.toNat)
        = some (.time t)) ∧
    ((listSelect status.isSome dueDateFrom.isSome dueDateTo.isSome).limitPh
        = 2 + (status.isSome.toNat + dueDateFrom.isSome.toNat + dueDateTo.isSome.toNat) ∧
      placeholder args (2 + (status.isSome.toNat + dueDateFrom.isSome.toNat
          + dueDateTo.isSome.toNat)) = some (.int32 pageSize)) ∧
    ((listSelect status.isSome dueDateFrom.isSome dueDateTo.isSome).offsetPh
        = 3 + (status.isSome.toNat + dueDateFrom.isSome.toNat + dueDateTo.isSome.toNat) ∧
      placeholder args (3 + (status.isSome.toNat + dueDateFrom.isSome.toNat
          + dueDateTo.isSome.toNat)) = some (.int32 (wrapInt32 (pageSize * pageToken)))) := by
  cases status <;> cases dueDateFrom <;> cases dueDateTo <;>
    simp only [Storage.ListTasks.statement, bind, Except.bind, pure, Except.pure] at h
  all_goals repeat' (split at h)
  all_goals cases h
  all_goals simp only [Option.isSome_some, Option.isSome_none]
  all_goals
    refine ⟨rfl, by decide, rfl, ⟨by decide, rfl⟩, ?_, ?_, ?_, ⟨rfl, rfl⟩, ⟨rfl, rfl⟩⟩
  all_goals first
    | (intro x hx; cases hx; first
        | exact ⟨by decide, rfl⟩
        | exact ⟨_, by assumption, by decide, rfl⟩)
    | (intro x hx; cases hx)

/-- A value within the 32-bit signed range is its own wrap-around. -/
theorem wrapInt32_of_fits (x : Int) (hlo : minInt32 ≤ x) (hhi : x ≤ maxInt32) :
    wrapInt32 x = x := by
  unfold wrapInt32
  unfold minInt32 at hlo
  unfold maxInt32 at hhi
  have h : (x + 2 ^ 31) % 2 ^ 32 = x + 2 ^ 31 := by
    apply Int.emod_eq_of_lt <;> omega
  rw [h]
  omega

/-- When `ListTasks` builds a statement: every predicate finds an argument of the right
type, the placeholders of `LIMIT` and `OFFSET` are bound to the page size and to the
wrapped product, and the selected rows do not depend on the two paging arguments. -/
theorem ListTasks_statement_binding (env : Env) (userID : Int) (status : Option Int)
    (dueDateFrom dueDateTo : Option String) (pageSize pageToken : Int)
    (q : String) (args : List SqlArg)
    (h : Storage.ListTasks.statement env userID status dueDateFrom dueDateTo pageSize pageToken
      = .ok (q, args)) :
    (listSelect status.isSome dueDateFrom.isSome dueDateTo.isSome).conds.all (Cond.bound args)
      = true ∧
    placeholder args (listSelect status.isSome dueDateFrom.isSome dueDateTo.isSome).limitPh
      = some (.int32 pageSize) ∧
    placeholder args (listSelect status.isSome dueDateFrom.isSome dueDateTo.isSome).offsetPh
      = some (.int32 (wrapInt32 (pageSize * pageToken))) ∧
    ∀ rows, (listSelect status.isSome dueDateFrom.isSome dueDateTo.isSome).selected args rows
      = (listSelect status.isSome dueDateFrom.isSome dueDateTo.isSome).selected
          (.int64 userID :: Storage.ListTasks.filterArgs env status dueDateFrom dueDateTo)
          rows := by
  cases status <;> cases dueDateFrom <;> cases dueDateTo <;>
    simp only [Storage.ListTasks.statement, bind, Except.bind, pure, Except.pure] at h
  all_goals repeat' (split at h)
  all_goals cases h
  all_goals simp only [Option.isSome_some, Option.isSome_none]
  all_goals
    refine ⟨rfl, rfl, rfl, ?_⟩
    intro rows
    simp only [SelectStmt.selected, Storage.ListTasks.filterArgs, Storage.ListTasks.timeArg, *]
    rfl

/-- C12, counterexample. Page size 65536 and page token 65536 are non-negative 32-bit
values; their product is 4294967296, and the `OFFSET` argument `SearchTasks` and
`ListTasks` bind is 0. -/
theorem C12_offset_wraps_around :
    (0 : Int) ≤ 65536 ∧ (65536 : Int) ≤ maxInt32 ∧
    placeholder (Storage.SearchTasks.statement 7 "milk" 65536 65536).2 searchSelect.offsetPh
      = some (.int32 0) ∧
    (∃ q args, Storage.ListTasks.statement demoEnv 7 none none none 65536 65536 = .ok (q, args) ∧
      placeholder args (listSelect false false false).offsetPh = some (.int32 0)) ∧
    (65536 : Int) * 65536 ≠ 0 := by
  refine ⟨by decide, by decide, by decide, ⟨_, _, rfl, by decide⟩, by decide⟩

/-- C12, amended. For a page size and a page token that are non-negative and whose product
is at most 2147483647: in every statement `ListTasks` builds and in the statement of
`SearchTasks`, the argument bound to the placeholder of `LIMIT` is the page size and the
argument bound to the placeholder of `OFFSET` is the product of page size and page
token. -/
theorem C12_offset_is_product_when_it_fits (env : Env) (userID : Int) (status : Option Int)
    (dueDateFrom dueDateTo : Option String) (query : String) (pageSize pageToken : Int)
    (hsize : 0 ≤ pageSize) (htoken : 0 ≤ pageToken)
    (hfits : pageSize * pageToken ≤ maxInt32) :
    (∀ q args,
      Storage.ListTasks.statement env userID status dueDateFrom dueDateTo pageSize pageToken
        = .ok (q, args) →
      placeholder args (listSelect status.isSome dueDateFrom.isSome dueDateTo.isSome).limitPh
        = some (.int32 pageSize) ∧
      placeholder args (listSelect status.isSome dueDateFrom.isSome dueDateTo.isSome).offsetPh
        = some (.int32 (pageSize * pageToken))) ∧
    placeholder (Storage.SearchTasks.statement userID query pageSize pageToken).2
        searchSelect.limitPh = some (.int32 pageSize) ∧
    placeholder (Storage.SearchTasks.statement userID query pageSize pageToken).2
        searchSelect.offsetPh = some (.int32 (pageSize * pageToken)) := by
  have hnonneg : 0 ≤ pageSize * pageToken := Int.mul_nonneg hsize htoken
  have hwrap : wrapInt32 (pageSize * pageToken) = pageSize * pageToken :=
    wrapInt32_of_fits _ (by unfold minInt32; omega) hfits
  refine ⟨?_, rfl, ?_⟩
  · intro q args h
    have hb := ListTasks_statement_binding env userID status dueDateFrom dueDateTo pageSize
      pageToken q args h
    rw [hwrap] at hb
    exact ⟨hb.2.1, hb.2.2.1⟩
  · show some (SqlArg.int32 (wrapInt32 (pageSize * pageToken))) = _
    rw [hwrap]

/-- Witness of C12: page size 10 and page token 2 give `LIMIT` 10 and `OFFSET` 20. -/
theorem C12_offset_is_product_when_it_fits_witness :
    placeholder (Storage.SearchTasks.statement 7 "milk" 10 2).2 searchSelect.limitPh
      = some (.int32 10) ∧
    placeholder (Storage.SearchTasks.statement 7 "milk" 10 2).2 searchSelect.offsetPh
      = some (.int32 (10 * 2)) :=
  (C12_offset_is_product_when_it_fits demoEnv 7 (some 1) none none "milk" 10 2
    (by decide) (by decide) (by decide)).2

/-- Witness of C17: status and lower bound present. -/
theorem C17_placeholders_match_arguments_witness :
    Storage.ListTasks.statement demoEnv 7 (some 1) (some "1970-01-01T00:00:00Z") none 10 2
      = .ok ("SELECT id, user_id, title, description, due_date, status, created_at, updated_at FROM tasks WHERE user_id = $1 AND status = $2 AND due_date >= $3 LIMIT $4 OFFSET $5",
             [.int64 7, .int32 1, .time ⟨0⟩, .int32 10, .int32 20]) ∧
    placeholdersIn "SELECT id, user_id, title, description, due_date, status, created_at, updated_at FROM tasks WHERE user_id = $1 AND status = $2 AND due_date >= $3 LIMIT $4 OFFSET $5".data
      = [1, 2, 3, 4, 5] :=
  ⟨rfl, (C17_placeholders_match_arguments demoEnv 7 (some 1) (some "1970-01-01T00:00:00Z")
    none 10 2 _ _ rfl).2.1⟩

/-! ## C13: pages -/

/-- In a list without repetition, the pages of size `n` for two different page numbers have
no element in common. -/
theorem pages_disjoint {α : Type} (l : List α) (hnodup : l.Nodup) (n p q : Nat)
    (hpq : p ≠ q) (a : α) (ha : a ∈ (l.drop (n * p)).take n)
    (hb : a ∈ (l.drop (n * q)).take n) : False := by
  have key : ∀ p q : Nat, p < q → ∀ a, a ∈ (l.drop (n * p)).take n →
      a ∈ (l.drop (n * q)).take n → False := by
    intro p q hlt a ha hb
    have hle : n * p + n ≤ n * q := by
      calc n * p + n = n * (p + 1) := by ring
        _ ≤ n * q := Nat.mul_le_mul_left n hlt
    have h1 : a ∈ l.take (n * q) := by
      rw [List.take_drop] at ha
      have h2 : a ∈ l.take (n * p + n) := List.mem_of_mem_drop ha
      have h3 : l.take (n * p + n) = (l.take (n * q)).take (n * p + n) := by
        rw [List.take_take, Nat.min_eq_left hle]
      rw [h3] at h2
      exact List.mem_of_mem_take h2
    have h2 : a ∈ l.drop (n * q) := List.mem_of_mem_take hb
    have hsplit : (l.take (n * q) ++ l.drop (n * q)).Nodup := by
      rw [List.take_append_drop]
      exact hnodup
    exact List.disjoint_of_nodup_append hsplit h1 h2
  rcases Nat.lt_or_gt_of_ne hpq with h | h
  · exact key p q h a ha hb
  · exact key q p h a hb ha

/-- The first `k` pages of size `n`, concatenated, are the first `n * k` elements. -/
theorem pages_cover {α : Type} (l : List α) (n k : Nat) :
    concatPages (fun i => (l.drop (n * i)).take n) k = l.take (n * k) := by
  induction k with
  | zero => simp [concatPages]
  | succ k ih =>
    simp only [concatPages, ih]
    rw [Nat.mul_succ, List.take_add]

/-- The page `ListTasks` returns from a healthy store, when the statement is built and the
two paging arguments are not negative: the matching rows, the wrapped product skipped, at
most the page size kept. -/
theorem ListTasks_page (env : Env) (db : DB) (userID : Int) (status : Option Int)
    (dueDateFrom dueDateTo : Option String) (pageSize pageToken : Int)
    (q : String) (args : List SqlArg)
    (hfault : db.fault = none)
    (h : Storage.ListTasks.statement env userID status dueDateFrom dueDateTo pageSize pageToken
      = .ok (q, args))
    (hsize : 0 ≤ pageSize) (hoffset : 0 ≤ wrapInt32 (pageSize * pageToken)) :
    Storage.ListTasks env db userID status dueDateFrom dueDateTo pageSize pageToken
      = (((Storage.ListTasks.matching env db userID status dueDateFrom dueDateTo).drop
            (wrapInt32 (pageSize * pageToken)).toNat).take pageSize.toNat, none) := by
  obtain ⟨hbound, hlimit, hoff, hsel⟩ := ListTasks_statement_binding env userID status
    dueDateFrom dueDateTo pageSize pageToken q args h
  have hq := (ListTasks_statement_shape env userID status dueDateFrom dueDateTo pageSize
    pageToken q args h).1
  have hparse : parseSelect q
      = some (listSelect status.isSome dueDateFrom.isSome dueDateTo.isSome) := by
    rw [hq]
    exact parseSelect_listSelect _ _ _
  simp only [Storage.ListTasks, h, Storage.queryTasks, hfault, hparse, SelectStmt.run, hbound,
    Bool.not_true, Bool.false_eq_true, if_false, hlimit, hoff, Option.bind, SqlArg.asInt]
  have h1 : ¬ pageSize < 0 := by omega
  have h2 : ¬ wrapInt32 (pageSize * pageToken) < 0 := by omega
  simp only [h1, h2, if_false, hsel, Storage.ListTasks.matching]

/-- The page `SearchTasks` returns from a healthy store when the two paging arguments are
not negative. -/
theorem SearchTasks_page (db : DB) (userID : Int) (query : String) (pageSize pageToken : Int)
    (hfault : db.fault = none)
    (hsize : 0 ≤ pageSize) (hoffset : 0 ≤ wrapInt32 (pageSize * pageToken)) :
    Storage.SearchTasks db userID query pageSize pageToken
      = (((Storage.SearchTasks.matching db userID query).drop
            (wrapInt32 (pageSize * pageToken)).toNat).take pageSize.toNat, none) := by
  have hbound : searchSelect.conds.all
      (Cond.bound (Storage.SearchTasks.args userID query pageSize pageToken)) = true := rfl
  have hlimit : placeholder (Storage.SearchTasks.args userID query pageSize pageToken)
      searchSelect.limitPh = some (.int32 pageSize) := rfl
  have hoff : placeholder (Storage.SearchTasks.args userID query pageSize pageToken)
      searchSelect.offsetPh = some (.int32 (wrapInt32 (pageSize * pageToken))) := rfl
  have hsel : searchSelect.selected (Storage.SearchTasks.args userID query pageSize pageToken)
      db.tasks = Storage.SearchTasks.matching db userID query := rfl
  simp only [Storage.SearchTasks, Storage.queryTasks, hfault, SearchTasks_query_shape.2,
    SelectStmt.run, hbound, Bool.not_true, Bool.false_eq_true, if_false, hlimit, hoff,
    Option.bind, SqlArg.asInt]
  have h1 : ¬ pageSize < 0 := by omega
  have h2 : ¬ wrapInt32 (pageSize * pageToken) < 0 := by omega
  simp only [h1, h2, if_false, hsel]

/-- Concatenation of pages only looks at the pages below the bound. -/
theorem concatPages_congr {α : Type} (f g : Nat → List α) (k : Nat)
    (h : ∀ i, i < k → f i = g i) : concatPages f k = concatPages g k := by
  induction k with
  | zero => rfl
  | succ k ih =>
    simp only [concatPages]
    rw [ih (fun i hi => h i (Nat.lt_succ_of_lt hi)), h k (Nat.lt_succ_self k)]

/-- What follows for pages that are `skip n * p, take n` of a list of rows with pairwise
different ids, as long as the offset is exact: different pages share no id, the first `k`
pages concatenated are the first `n * k` rows, and over three rows with page size 2 the
pages 0 and 1 hold two rows and one row. -/
theorem paging_properties (rows : List Task) (page : Int → List Task) (n : Int)
    (hn : 0 ≤ n)
    (hids : (rows.map (fun task => task.ID)).Nodup)
    (hpage : ∀ p : Nat, n * p ≤ maxInt32 →
      page p = (rows.drop (n.toNat * p)).take n.toNat) :
    (∀ p q : Int, 0 ≤ p → 0 ≤ q → n * p ≤ maxInt32 → n * q ≤ maxInt32 → p ≠ q →
      ∀ a ∈ page p, ∀ b ∈ page q, a.ID ≠ b.ID) ∧
    (∀ k : Nat, n * k ≤ maxInt32 →
      concatPages (fun i => page i) k = rows.take (n.toNat * k)) ∧
    (n = 2 → rows.length = 3 → (page 0).length = 2 ∧ (page 1).length = 1) := by
  refine ⟨?_, ?_, ?_⟩
  · intro p q hp hq hfp hfq hpq a ha b hb hab
    obtain ⟨p', rfl⟩ := Int.eq_ofNat_of_zero_le hp
    obtain ⟨q', rfl⟩ := Int.eq_ofNat_of_zero_le hq
    rw [hpage p' hfp] at ha
    rw [hpage q' hfq] at hb
    have hne : p' ≠ q' := fun h => hpq (by rw [h])
    have ha' : a.ID ∈ ((rows.map (fun task => task.ID)).drop (n.toNat * p')).take n.toNat := by
      rw [← List.map_drop, ← List.map_take]
      exact List.mem_map_of_mem _ ha
    have hb' : a.ID ∈ ((rows.map (fun task => task.ID)).drop (n.toNat * q')).take n.toNat := by
      rw [hab, ← List.map_drop, ← List.map_take]
      exact List.mem_map_of_mem _ hb
    exact pages_disjoint _ hids n.toNat p' q' hne a.ID ha' hb'
  · intro k hk
    rw [← pages_cover rows n.toNat k]
    apply concatPages_congr
    intro i hi
    apply hpage
    have h1 : (i : Int) ≤ k := by exact_mod_cast Nat.le_of_lt hi
    have h2 : n * i ≤ n * k := Int.mul_le_mul_of_nonneg_left h1 hn
    omega
  · intro h2 h3
    subst h2
    have e0 := hpage 0 (by decide)
    have e1 := hpage 1 (by decide)
    simp only [Nat.cast_zero, Nat.cast_one] at e0 e1
    rw [e0, e1]
    simp [List.length_take, List.length_drop, h3]

/-- The ids of the rows a statement selects are pairwise different when the ids of the
table are. -/
theorem selected_ids_nodup (stmt : SelectStmt) (args : List SqlArg) (rows : List Task)
    (hids : (rows.map (fun task => task.ID)).Nodup) :
    ((stmt.selected args rows).map (fun task => task.ID)).Nodup :=
  List.Nodup.sublist (List.Sublist.map _ (List.filter_sublist rows)) hids

/-- C13, counterexample. With page size 65536, the pages of user 7 for the page tokens 0
and 65536 are the same two tasks: the 32-bit product for token 65536 is 0. -/
theorem C13_pages_repeat_after_wrap_around :
    (0 : Int) < 65536 ∧ (0 : Int) ≠ 65536 ∧
    (Storage.ListTasks demoEnv demoDB 7 none none none 65536 0).1.map (fun task => task.ID)
      = [1, 3] ∧
    (Storage.ListTasks demoEnv demoDB 7 none none none 65536 65536).1.map
      (fun task => task.ID) = [1, 3] ∧
    (Storage.SearchTasks demoDB 7 "i" 65536 0).1.map (fun task => task.ID) = [1, 3] ∧
    (Storage.SearchTasks demoDB 7 "i" 65536 65536).1.map (fun task => task.ID) = [1, 3] ∧
    (∃ a ∈ (Storage.ListTasks demoEnv demoDB 7 none none none 65536 0).1,
      ∃ b ∈ (Storage.ListTasks demoEnv demoDB 7 none none none 65536 65536).1,
        a.ID = b.ID) := by
  refine ⟨by decide, by decide, by decide, by decide, by decide, by decide, by decide⟩

/-- C13, amended. Over a healthy store whose task ids are pairwise different, for a page
size `n > 0`, filters for which `ListTasks` builds its statement, and page tokens `p ≥ 0`
whose product `n * p` is at most 2147483647: the page `ListTasks` (`SearchTasks`) returns
is the caller's matching rows with `n * p` rows skipped and at most `n` kept; the pages for
two different such tokens share no task id; the pages for the tokens `0, ..., k - 1`
concatenated are the first `n * k` matching rows, hence all of them once `n * k` reaches
their number; and over 3 matching rows with page size 2, page 0 has 2 tasks and page 1
has the 1 remaining task. -/
theorem C13_pages_partition_matching_rows (env : Env) (db : DB) (userID : Int)
    (status : Option Int) (dueDateFrom dueDateTo : Option String) (query : String) (n : Int)
    (q₀ : String) (args₀ : List SqlArg)
    (hn : 0 < n)
    (hfault : db.fault = none)
    (hids : (db.tasks.map (fun task => task.ID)).Nodup)
    (hbuild : Storage.ListTasks.statement env userID status dueDateFrom dueDateTo n 0
      = .ok (q₀, args₀)) :
    (∀ p : Int, 0 ≤ p → n * p ≤ maxInt32 →
      (Storage.ListTasks env db userID status dueDateFrom dueDateTo n p).1
        = ((Storage.ListTasks.matching env db userID status dueDateFrom dueDateTo).drop
            (n * p).toNat).take n.toNat ∧
      (Storage.SearchTasks db userID query n p).1
        = ((Storage.SearchTasks.matching db userID query).drop (n * p).toNat).take n.toNat) ∧
    (∀ p q : Int, 0 ≤ p → 0 ≤ q → n * p ≤ maxInt32 → n * q ≤ maxInt32 → p ≠ q →
      (∀ a ∈ (Storage.ListTasks env db userID status dueDateFrom dueDateTo n p).1,
        ∀ b ∈ (Storage.ListTasks env db userID status dueDateFrom dueDateTo n q).1,
          a.ID ≠ b.ID) ∧
      (∀ a ∈ (Storage.SearchTasks db userID query n p).1,
        ∀ b ∈ (Storage.SearchTasks db userID query n q).1, a.ID ≠ b.ID)) ∧
    (∀ k : Nat, n * k ≤ maxInt32 →
      concatPages (fun i =>
          (Storage.ListTasks env db userID status dueDateFrom dueDateTo n i).1) k
        = (Storage.ListTasks.matching env db userID status dueDateFrom dueDateTo).take
            (n.toNat * k) ∧
      concatPages (fun i => (Storage.SearchTasks db userID query n i).1) k
        = (Storage.SearchTasks.matching db userID query).take (n.toNat * k)) ∧
    (∀ k : Nat, n * k ≤ maxInt32 →
      ((Storage.ListTasks.matching env db userID status dueDateFrom dueDateTo).length
          ≤ n.toNat * k →
        concatPages (fun i =>
            (Storage.ListTasks env db userID status dueDateFrom dueDateTo n i).1) k
          = Storage.ListTasks.matching env db userID status dueDateFrom dueDateTo) ∧
      ((Storage.SearchTasks.matching db userID query).length ≤ n.toNat * k →
        concatPages (fun i => (Storage.SearchTasks db userID query n i).1) k
          = Storage.SearchTasks.matching db userID query)) ∧
    (n = 2 →
      ((Storage.ListTasks.matching env db userID status dueDateFrom dueDateTo).length = 3 →
        (Storage.ListTasks env db userID status dueDateFrom dueDateTo 2 0).1.length = 2 ∧
        (Storage.ListTasks env db userID status dueDateFrom dueDateTo 2 1).1.length = 1) ∧
      ((Storage.SearchTasks.matching db userID query).length = 3 →
        (Storage.SearchTasks db userID query 2 0).1.length = 2 ∧
        (Storage.SearchTasks db userID query 2 1).1.length = 1)) := by
  have hn0 : 0 ≤ n := Int.le_of_lt hn
  have hoffset : ∀ p : Nat, n * p ≤ maxInt32 →
      wrapInt32 (n * p) = n * p ∧ (n * (p : Int)).toNat = n.toNat * p := by
    intro p hp
    have hnonneg : 0 ≤ n * (p : Int) := Int.mul_nonneg hn0 (Int.ofNat_nonneg p)
    refine ⟨wrapInt32_of_fits _ (by unfold minInt32; omega) hp, ?_⟩
    obtain ⟨m, rfl⟩ := Int.eq_ofNat_of_zero_le hn0
    have hcast : ((m : Int) * (p : Int)) = ((m * p : Nat) : Int) := by push_cast; rfl
    rw [hcast, Int.toNat_ofNat, Int.toNat_ofNat]
  have hpageL : ∀ p : Nat, n * p ≤ maxInt32 →
      (Storage.ListTasks env db userID status dueDateFrom dueDateTo n p).1
        = ((Storage.ListTasks.matching env db userID status dueDateFrom dueDateTo).drop
            (n.toNat * p)).take n.toNat := by
    intro p hp
    obtain ⟨hw, hnat⟩ := hoffset p hp
    have hstmt := (ListTasks_statement_args env userID status dueDateFrom dueDateTo n 0 q₀
      args₀ hbuild).2.2 n p
    rw [ListTasks_page env db userID status dueDateFrom dueDateTo n p q₀ _ hfault hstmt hn0
      (by rw [hw]; exact Int.mul_nonneg hn0 (Int.ofNat_nonneg p)), hw, hnat]
  have hpageS : ∀ p : Nat, n * p ≤ maxInt32 →
      (Storage.SearchTasks db userID query n p).1
        = ((Storage.SearchTasks.matching db userID query).drop (n.toNat * p)).take n.toNat := by
    intro p hp
    obtain ⟨hw, hnat⟩ := hoffset p hp
    rw [SearchTasks_page db userID query n p hfault hn0
      (by rw [hw]; exact Int.mul_nonneg hn0 (Int.ofNat_nonneg p)), hw, hnat]
  have hL := paging_properties
    (Storage.ListTasks.matching env db userID status dueDateFrom dueDateTo)
    (fun p => (Storage.ListTasks env db userID status dueDateFrom dueDateTo n p).1) n hn0
    (selected_ids_nodup _ _ _ hids) hpageL
  have hS := paging_properties (Storage.SearchTasks.matching db userID query)
    (fun p => (Storage.SearchTasks db userID query n p).1) n hn0
    (selected_ids_nodup _ _ _ hids) hpageS
  refine ⟨?_, ?_, ?_, ?_, ?_⟩
  · intro p hp hfit
    obtain ⟨p', rfl⟩ := Int.eq_ofNat_of_zero_le hp
    rw [(hoffset p' hfit).2]
    exact ⟨hpageL p' hfit, hpageS p' hfit⟩
  · intro p q hp hq hfp hfq hpq
    exact ⟨hL.1 p q hp hq hfp hfq hpq, hS.1 p q hp hq hfp hfq hpq⟩
  · intro k hk
    exact ⟨hL.2.1 k hk, hS.2.1 k hk⟩
  · intro k hk
    refine ⟨fun hlen => ?_, fun hlen => ?_⟩
    · rw [hL.2.1 k hk, List.take_of_length_le hlen]
    · rw [hS.2.1 k hk, List.take_of_length_le hlen]
  · intro h2
    subst h2
    exact ⟨hL.2.2 rfl, hS.2.2 rfl⟩

/-- Witness of C13: user 7 owns three tasks; with page size 2, page 0 holds tasks 1 and 3,
page 1 holds task 4, and the two pages share no id. -/
theorem C13_pages_partition_matching_rows_witness :
    (Storage.ListTasks demoEnv demoBoard 7 none none none 2 0).1.map (fun task => task.ID)
      = [1, 3] ∧
    (Storage.ListTasks demoEnv demoBoard 7 none none none 2 1).1.map (fun task => task.ID)
      = [4] ∧
    ((Storage.ListTasks demoEnv demoBoard 7 none none none 2 0).1.length = 2 ∧
      (Storage.ListTasks demoEnv demoBoard 7 none none none 2 1).1.length = 1) ∧
    (∀ a ∈ (Storage.ListTasks demoEnv demoBoard 7 none none none 2 0).1,
      ∀ b ∈ (Storage.ListTasks demoEnv demoBoard 7 none none none 2 1).1, a.ID ≠ b.ID) :=
  ⟨by decide, by decide,
   ((C13_pages_partition_matching_rows demoEnv demoBoard 7 none none none "" 2 _ _
      (by decide) rfl (by decide) rfl).2.2.2.2 rfl).1 (by decide),
   ((C13_pages_partition_matching_rows demoEnv demoBoard 7 none none none "" 2 _ _
      (by decide) rfl (by decide) rfl).2.1 0 1 (by decide) (by decide) (by decide) (by decide)
      (by decide)).1⟩

/-! ## C14: what `SearchTasks` selects -/

/-- Folding to lower case neither produces nor removes a special character. -/
theorem isLikeSpecial_toLower (c : Char) : isLikeSpecial c.toLower = isLikeSpecial c := by
  unfold Char.toLower
  simp only
  split
  · next h =>
    have hc : c = Char.ofNat c.toNat := (Char.ofNat_toNat c).symm
    obtain ⟨h1, h2⟩ := h
    generalize c.toNat = n at hc h1 h2
    subst hc
    interval_cases n <;> decide
  · rfl

/-- One step of `likeMatch` on a non-empty pattern. -/
theorem likeMatch_cons (c : Char) (p t : List Char) :
    likeMatch (c :: p) t =
      (if c = '%' then anySuffix (likeMatch p) t
      else if c = '_' then
        match t with
        | [] => false
        | _ :: t' => likeMatch p t'
      else if c = Char.ofNat 92 then
        match p with
        | [] => false
        | e :: p' =>
          match t with
          | [] => false
          | d :: t' => decide (d = e) && likeMatch p' t'
      else
        match t with
        | [] => false
        | d :: t' => decide (d = c) && likeMatch p t') := by
  cases p <;> rfl

/-- The empty pattern matches the empty text only. -/
theorem likeMatch_nil (t : List Char) : likeMatch [] t = t.isEmpty := by
  cases t <;> rfl

/-- The helper `anySuffix` accepts exactly when its test accepts some suffix. -/
theorem anySuffix_iff (f : List Char → Bool) (t : List Char) :
    anySuffix f t = true ↔ ∃ s, s <:+ t ∧ f s = true := by
  induction t with
  | nil =>
    simp only [anySuffix]
    constructor
    · intro h
      exact ⟨[], List.suffix_refl _, h⟩
    · rintro ⟨s, hs, hf⟩
      have : s = [] := List.eq_nil_of_suffix_nil hs
      rw [this] at hf
      exact hf
  | cons c t ih =>
    simp only [anySuffix, Bool.or_eq_true, ih]
    constructor
    · rintro (h | ⟨s, hs, hf⟩)
      · exact ⟨c :: t, List.suffix_refl _, h⟩
      · exact ⟨s, List.suffix_cons_iff.mpr (Or.inr hs), hf⟩
    · rintro ⟨s, hs, hf⟩
      rcases List.suffix_cons_iff.mp hs with h | h
      · left
        rw [h] at hf
        exact hf
      · exact Or.inr ⟨s, h, hf⟩

/-- A pattern that starts with ordinary characters matches exactly the texts that start
with these characters and whose rest matches the rest of the pattern. -/
theorem likeMatch_literal (lit pat : List Char) (hlit : ∀ c ∈ lit, isLikeSpecial c = false)
    (t : List Char) :
    likeMatch (lit ++ pat) t = true ↔ ∃ r, t = lit ++ r ∧ likeMatch pat r = true := by
  induction lit generalizing t with
  | nil => simp
  | cons c l ih =>
    have hc : isLikeSpecial c = false := hlit c (List.mem_cons_self c l)
    have hl : ∀ d ∈ l, isLikeSpecial d = false := fun d hd => hlit d (List.mem_cons_of_mem c hd)
    simp only [isLikeSpecial, Bool.or_eq_false_iff, decide_eq_false_iff_not] at hc
    obtain ⟨⟨h1, h2⟩, h3⟩ := hc
    rw [List.cons_append]
    cases t with
    | nil => simp [likeMatch_cons, h1, h2, h3]
    | cons d t' =>
      simp only [likeMatch_cons, h1, h2, h3, if_false, Bool.and_eq_true, decide_eq_true_eq,
        ih hl, List.cons_append, List.cons.injEq]
      constructor
      · rintro ⟨hd, r, hr, hm⟩
        exact ⟨r, ⟨hd, hr⟩, hm⟩
      · rintro ⟨r, ⟨hd, hr⟩, hm⟩
        exact ⟨hd, r, hr, hm⟩

/-- The pattern `%` matches every text. -/
theorem likeMatch_percent (t : List Char) : likeMatch ['%'] t = true := by
  rw [likeMatch_cons]
  simp only [if_true]
  exact (anySuffix_iff _ t).mpr ⟨[], List.nil_suffix, rfl⟩

/-- For a text `q` without special characters, the pattern `%q%` matches exactly the texts
that contain `q`. -/
theorem likeMatch_contains (q t : List Char) (hq : ∀ c ∈ q, isLikeSpecial c = false) :
    likeMatch ('%' :: (q ++ ['%'])) t = true ↔ q <:+: t := by
  have hstep : likeMatch ('%' :: (q ++ ['%'])) t = anySuffix (likeMatch (q ++ ['%'])) t := by
    rw [likeMatch_cons]
    simp
  rw [hstep, anySuffix_iff, List.infix_iff_prefix_suffix]
  constructor
  · rintro ⟨s, hs, hm⟩
    obtain ⟨r, hr, -⟩ := (likeMatch_literal q ['%'] hq s).mp hm
    exact ⟨s, ⟨r, hr.symm⟩, hs⟩
  · rintro ⟨s, ⟨r, hr⟩, hs⟩
    exact ⟨s, hs, (likeMatch_literal q ['%'] hq s).mpr ⟨r, hr.symm, likeMatch_percent r⟩⟩

/-- For a search string without special characters, `ilike text "%q%"` holds exactly when
`q` occurs in the text, both folded by `Char.toLower`. -/
theorem ilike_contains (text q : String) (hq : ∀ c ∈ q.data, isLikeSpecial c = false) :
    ilike text ("%" ++ q ++ "%") = true
      ↔ q.data.map Char.toLower <:+: text.data.map Char.toLower := by
  have hpat : ("%" ++ q ++ "%").data.map Char.toLower
      = '%' :: (q.data.map Char.toLower ++ ['%']) := by
    simp [String.data_append]
  unfold ilike
  rw [hpat]
  apply likeMatch_contains
  intro c hc
  obtain ⟨d, hd, rfl⟩ := List.mem_map.mp hc
  rw [isLikeSpecial_toLower]
  exact hq d hd

/-- C14, counterexample. User 7 searches for `r_p`: the task titled "Write report" is
selected although `r_p` occurs neither in its title nor in its description (the `_` stands
for any character). Searching for `%` selects both tasks of user 7 although no title or
description contains a percent sign. -/
theorem C14_wildcards_select_rows_without_the_text :
    ({ ID := 1, UserID := 7, Title := "Write report", Description := "quarterly",
       DueDate := none, Status := 1, CreatedAt := ⟨0⟩, UpdatedAt := ⟨0⟩ } : Task)
      ∈ searchSelect.selected (Storage.SearchTasks.statement 7 "r_p" 10 0).2 demoDB.tasks ∧
    ¬ ("r_p".data.map Char.toLower <:+: "Write report".data.map Char.toLower) ∧
    ¬ ("r_p".data.map Char.toLower <:+: "quarterly".data.map Char.toLower) ∧
    (Storage.SearchTasks demoDB 7 "r_p" 10 0).1.map (fun task => task.ID) = [1] ∧
    (Storage.SearchTasks demoDB 7 "%" 10 0).1.map (fun task => task.ID) = [1, 3] ∧
    (∀ task ∈ demoDB.tasks, ¬ ("%".data <:+: task.Title.data) ∧
      ¬ ("%".data <:+: task.Description.data)) := by
  refine ⟨by decide, by decide, by decide, by decide, by decide, by decide⟩

/-- On ASCII text, a fold that agrees with `Char.toLower` on ASCII characters folds as
`Char.toLower` does. -/
theorem map_lower_of_isASCII (lower : Char → Char)
    (hlower : ∀ c : Char, c.toNat < 128 → lower c = c.toLower) (s : String)
    (hs : isASCII s = true) : s.data.map lower = s.data.map Char.toLower := by
  apply List.map_congr_left
  intro c hc
  apply hlower
  unfold isASCII at hs
  rw [List.all_eq_true] at hs
  simpa using hs c hc

/-- C14, amended. For every owner id, every search string `q` of ASCII characters that
contains none of the characters `%`, `_` and backslash, and every row of the store whose
title and description are ASCII text: the statement of `SearchTasks` selects the row
(before `LIMIT` and `OFFSET`) if and only if the row belongs to the owner and `q` occurs,
ignoring letter case, as a substring of the row's title or of its description. Letter case
is ignored by folding with `lower`, any fold that treats ASCII characters as
`Char.toLower` does (only `A` to `Z` change). Nothing is stated for text outside ASCII,
where the engine folds letters by its locale. -/
theorem C14_search_selects_rows_containing_the_text (db : DB) (userID : Int) (q : String)
    (pageSize pageToken : Int) (row : Task) (lower : Char → Char)
    (hlower : ∀ c : Char, c.toNat < 128 → lower c = c.toLower)
    (hq : ∀ c ∈ q.data, isLikeSpecial c = false)
    (hqASCII : isASCII q = true)
    (htitleASCII : isASCII row.Title = true)
    (hdescriptionASCII : isASCII row.Description = true) :
    parseSelect (Storage.SearchTasks.statement userID q pageSize pageToken).1
      = some searchSelect ∧
    (row ∈ searchSelect.selected (Storage.SearchTasks.statement userID q pageSize pageToken).2
        db.tasks ↔
      row ∈ db.tasks ∧ row.UserID = userID ∧
        (q.data.map lower <:+: row.Title.data.map lower ∨
         q.data.map lower <:+: row.Description.data.map lower)) := by
  refine ⟨SearchTasks_query_shape.2, ?_⟩
  have hholds : searchSelect.conds.all
      (Cond.holds (Storage.SearchTasks.statement userID q pageSize pageToken).2 row)
      = (decide (row.UserID = userID) &&
          (ilike row.Title ("%" ++ q ++ "%") || ilike row.Description ("%" ++ q ++ "%"))) := by
    simp [searchSelect, Storage.SearchTasks.statement, Storage.SearchTasks.args, Cond.holds,
      placeholder, SqlArg.asInt]
  unfold SelectStmt.selected
  rw [List.mem_filter, hholds, Bool.and_eq_true, Bool.or_eq_true, decide_eq_true_eq,
    ilike_contains row.Title q hq, ilike_contains row.Description q hq,
    map_lower_of_isASCII lower hlower q hqASCII,
    map_lower_of_isASCII lower hlower row.Title htitleASCII,
    map_lower_of_isASCII lower hlower row.Description hdescriptionASCII]

/-- Witness of C14: user 7 searches for `REPORT`. -/
theorem C14_search_selects_rows_containing_the_text_witness :
    (({ ID := 1, UserID := 7, Title := "Write report", Description := "quarterly",
        DueDate := none, Status := 1, CreatedAt := ⟨0⟩, UpdatedAt := ⟨0⟩ } : Task)
      ∈ searchSelect.selected (Storage.SearchTasks.statement 7 "REPORT" 10 0).2 demoDB.tasks ↔
      ({ ID := 1, UserID := 7, Title := "Write report", Description := "quarterly",
         DueDate := none, Status := 1, CreatedAt := ⟨0⟩, UpdatedAt := ⟨0⟩ } : Task)
        ∈ demoDB.tasks ∧ (7 : Int) = 7 ∧
        ("REPORT".data.map Char.toLower <:+: "Write report".data.map Char.toLower ∨
         "REPORT".data.map Char.toLower <:+: "quarterly".data.map Char.toLower)) :=
  (C14_search_selects_rows_containing_the_text demoDB 7 "REPORT" 10 0
    { ID := 1, UserID := 7, Title := "Write report", Description := "quarterly",
      DueDate := none, Status := 1, CreatedAt := ⟨0⟩, UpdatedAt := ⟨0⟩ } Char.toLower
    (fun _ _ => rfl) (by decide) (by decide) (by decide) (by decide)).2

end TaskManagement
